import Mathlib

/-!
Verification of the `iosxe_wlc` client library (`src/iosxe_wlc/__init__.py`).

The library is a single class `IosXeWlc` with four methods:
`update_creds`, `test`, `get_clients` and `get_client_addresses`.
We embed it shallowly: the instance is a record, the HTTP transport is a
mock modelled as a list of per-request outcomes consumed in order, and each
operation returns its result together with the remaining outcome stream,
the list of requests it issued and the structured log entries it emitted.
Python exceptions are modelled with `Except`; the generic
`except Exception` handler of each retry loop catches them.
-/

namespace IosXeWlcSpec

/-- JSON values, as produced by `response.json()` in the Python source. -/
inductive Json where
  | null
  | bool (b : Bool)
  | num (n : Int)
  | str (s : String)
  | arr (xs : List Json)
  | obj (kvs : List (String × Json))

/-- A Python exception: class name and message. -/
structure PyErr where
  ename : String
  emsg : String
deriving DecidableEq

/-- Association-list lookup, the semantics of Python `dict[key]` access order
    (first binding wins; our `Json.obj` lists have one binding per key). -/
def jsonLookup : List (String × Json) → String → Option Json
  | [], _ => none
  | (k, v) :: rest, key => if k = key then some v else jsonLookup rest key

/-- Python `value.get(key, default)`: only defined on dicts, raising
    `AttributeError` on any other value. -/
def dictGet (j : Json) (key : String) (dflt : Json) : Except PyErr Json :=
  match j with
  | .obj kvs => .ok ((jsonLookup kvs key).getD dflt)
  | _ => .error ⟨"AttributeError", "object has no attribute get"⟩

/-- Python `len(value)`: defined on lists, dicts and strings, `TypeError`
    otherwise. -/
def pyLen : Json → Except PyErr Nat
  | .arr xs => .ok xs.length
  | .obj kvs => .ok kvs.length
  | .str s => .ok s.length
  | _ => .error ⟨"TypeError", "object has no len"⟩

/-- Python `value[key]` for a string key: `KeyError` on a dict without the
    key, `TypeError` on any non-dict value. -/
def pyGetItem (j : Json) (key : String) : Except PyErr Json :=
  match j with
  | .obj kvs =>
    match jsonLookup kvs key with
    | some v => .ok v
    | none => .error ⟨"KeyError", key⟩
  | _ => .error ⟨"TypeError", "value is not subscriptable by a string"⟩

/-- Python dict item assignment `d[k] = v`: replaces the value in place if
    the key exists (keeping its position), else appends the new binding. -/
def setKV : List (String × Json) → String → Json → List (String × Json)
  | [], k, v => [(k, v)]
  | (k', v') :: rest, k, v =>
    if k' = k then (k', v) :: rest else (k', v') :: setKV rest k v

/-- `client_obj['ip_addr'] = value` on a record; only reached on dicts. -/
def objSet (j : Json) (k : String) (v : Json) : Json :=
  match j with
  | .obj kvs => .obj (setKV kvs k v)
  | _ => j

/-- The `IosXeWlc` instance state: the fields set by `__init__` and mutated
    only by `update_creds`. -/
structure IosXeWlc where
  host : String
  username : String
  password : String
  ca_cert : Option String
  timeout : Nat
  retry : Nat
deriving DecidableEq

/-- `IosXeWlc.__init__`: stores the connection parameters and fixes
    `timeout = 5`, `retry = 3`. -/
def init (host username password : String) (ca_cert : Option String) : IosXeWlc :=
  { host := host, username := username, password := password,
    ca_cert := ca_cert, timeout := 5, retry := 3 }

/-- One mock-transport outcome for a single `requests.get` call: either the
    call raises (timeout, TLS, DNS, connection error, ...) or it returns a
    response with a status code and a body; `body = none` means the body is
    not parseable JSON, so `response.json()` raises. -/
inductive Outcome where
  | exn (ename emsg : String)
  | resp (status : Nat) (body : Option Json)

/-- Consume the next outcome of the mock transport; an exhausted stream
    behaves as a transport-level connection error. -/
def takeOutcome : List Outcome → Outcome × List Outcome
  | [] => (.exn "ConnectionError" "no response from transport", [])
  | o :: rest => (o, rest)

/-- The data of one `requests.get` call as built by the source: URL, basic
    auth pair, timeout, TLS verification (`some path` for a CA bundle,
    `none` for the default trust store, i.e. `verify=True`) and the
    `accept` header. -/
structure Request where
  url : String
  auth : String × String
  timeout : Nat
  verify : Option String
  accept : String
deriving DecidableEq

/-- Structured log entries: one constructor per f-string passed to the
    logger in the source, carrying exactly the interpolated program data
    (wall-clock response times are not modelled). -/
inductive LogEntry where
  | updateCreds (username : String)
  | testStart
  | testSuccess (status tryNum : Nat)
  | testFailStatus (tryNum status : Nat)
  | testFailExn (tryNum : Nat) (ename emsg : String)
  | testExhausted (tried timeout : Nat)
  | gcStart (client : Option String)
  | gcSuccess (client : Option String) (count status tryNum : Nat)
  | gcFailStatus (client : Option String) (status tryNum : Nat)
  | gcFailExn (client : Option String) (ename emsg : String)
  | gcExhausted (tried timeout : Nat)
  | gcaStart (client : Option String)
  | gcaSuccess (client : Option String) (count status tryNum : Nat)
  | gcaFailStatus (client : Option String) (status tryNum : Nat)
  | gcaFailExn (client : Option String) (ename emsg : String)
  | gcaExhausted (tried timeout : Nat)
deriving DecidableEq

/-- The observable effects of one operation: its return value, the
    remaining transport stream, the requests issued and the log entries
    emitted, in order. -/
structure Run (α : Type) where
  res : α
  world : List Outcome
  reqs : List Request
  logs : List LogEntry

/-- `update_creds`: replaces username and password, logging only the new
    username at debug level. -/
def update_creds (s : IosXeWlc) (username password : String) :
    IosXeWlc × List LogEntry :=
  ({ s with username := username, password := password },
   [.updateCreds username])

/-- The sixteen hex characters accepted by the source's validation loop
    (the list of the digits followed by the letters a to f). -/
def hexChars : List Char := "0123456789abcdef".toList

/-- `client.replace(':', '').replace('-', '').replace('.', '').lower()`:
    each `replace(c, '')` on a single character deletes that character, and
    `.lower()` lowercases (modelled on the character list of the string). -/
def stripLower (client : String) : List Char :=
  ((((client.toList.filter (fun ch => ch ≠ ':')).filter
      (fun ch => ch ≠ '-')).filter (fun ch => ch ≠ '.')).map Char.toLower)

/-- `f"{c[0:2]}:{c[2:4]}:{c[4:6]}:{c[6:8]}:{c[8:10]}:{c[10:12]}"`. -/
def formatMac (c : List Char) : String :=
  String.mk (c.take 2) ++ ":" ++ String.mk ((c.drop 2).take 2) ++ ":" ++
  String.mk ((c.drop 4).take 2) ++ ":" ++ String.mk ((c.drop 6).take 2) ++ ":" ++
  String.mk ((c.drop 8).take 2) ++ ":" ++ String.mk ((c.drop 10).take 2)

/-- The MAC validation/canonicalization block at the top of `get_clients`:
    strip separators and lowercase, require exactly 12 characters, raise
    `ValueError` at the first non-hex character, else rejoin with colons. -/
def canonMacClients (client : String) : Except PyErr String :=
  let c := stripLower client
  if c.length ≠ 12 then
    .error ⟨"ValueError",
      "Expecting a client MAC address with 12 characters and got " ++ String.mk c⟩
  else
    match c.find? (fun ch => !(hexChars.contains ch)) with
    | some ch =>
      .error ⟨"ValueError",
        "Expecting MAC address and got an invalid char (" ++ String.mk [ch] ++ ") " ++ String.mk c⟩
    | none => .ok (formatMac c)

/-- The identical MAC validation/canonicalization block duplicated at the
    top of `get_client_addresses`. -/
def canonMacAddresses (client : String) : Except PyErr String :=
  let c := stripLower client
  if c.length ≠ 12 then
    .error ⟨"ValueError",
      "Expecting a client MAC address with 12 characters and got " ++ String.mk c⟩
  else
    match c.find? (fun ch => !(hexChars.contains ch)) with
    | some ch =>
      .error ⟨"ValueError",
        "Expecting MAC address and got an invalid char (" ++ String.mk [ch] ++ ") " ++ String.mk c⟩
    | none => .ok (formatMac c)

/-- The `requests.get` arguments built by `test`. -/
def testRequest (s : IosXeWlc) : Request :=
  { url := "https://" ++ s.host ++ "/restconf/",
    auth := (s.username, s.password),
    timeout := s.timeout,
    verify := s.ca_cert,
    accept := "application/yang-data+json" }

/-- The `for try_number in range(self.retry)` loop of `test`, with `fuel`
    the remaining attempts and `tryNum` the 1-based attempt number
    (`try_number + 1`, as interpolated in the log messages). -/
def testLoop (s : IosXeWlc) : Nat → Nat → List Outcome → Run Bool
  | _, 0, w => ⟨false, w, [], [.testExhausted (s.retry + 1) s.timeout]⟩
  | tryNum, fuel + 1, w =>
    let req := testRequest s
    let (o, w') := takeOutcome w
    match o with
    | .resp status _ =>
      if status = 200 then
        ⟨true, w', [req], [.testSuccess status tryNum]⟩
      else
        let r := testLoop s (tryNum + 1) fuel w'
        ⟨r.res, r.world, req :: r.reqs, .testFailStatus tryNum status :: r.logs⟩
    | .exn en em =>
      let r := testLoop s (tryNum + 1) fuel w'
      ⟨r.res, r.world, req :: r.reqs, .testFailExn tryNum en em :: r.logs⟩

/-- `IosXeWlc.test`. -/
def test (s : IosXeWlc) (w : List Outcome) : Run Bool :=
  let r := testLoop s 1 s.retry w
  ⟨r.res, r.world, r.reqs, .testStart :: r.logs⟩

/-- The observable effects of a listing operation or of its enrichment
    sub-steps: result (with Python exceptions as `.error`), remaining
    transport stream, requests, log entries, and the arguments/results of
    the client-address lookups performed for enrichment, in order. -/
structure ERun (α : Type) where
  res : Except PyErr α
  world : List Outcome
  reqs : List Request
  logs : List LogEntry
  lookups : List (Option String × Json)

/-- Fixed envelope key consumed by `get_client_addresses`. -/
def gcaKey : String := "Cisco-IOS-XE-wireless-client-oper:sisf-db-mac"

/-- Fixed envelope key consumed by `get_clients`. -/
def gcKey : String := "Cisco-IOS-XE-wireless-client-oper:common-oper-data"

/-- The `requests.get` arguments built by `get_client_addresses`. -/
def gcaRequest (s : IosXeWlc) (client : Option String) : Request :=
  { url := "https://" ++ s.host ++
      "/restconf/data/Cisco-IOS-XE-wireless-client-oper:client-oper-data/sisf-db-mac" ++
      (match client with | none => "" | some c => "=" ++ c),
    auth := (s.username, s.password),
    timeout := s.timeout,
    verify := s.ca_cert,
    accept := "application/yang-data+json" }

/-- The `requests.get` arguments built by `get_clients`. -/
def gcRequest (s : IosXeWlc) (client : Option String) : Request :=
  { url := "https://" ++ s.host ++
      "/restconf/data/Cisco-IOS-XE-wireless-client-oper:client-oper-data/common-oper-data" ++
      (match client with | none => "" | some c => "=" ++ c),
    auth := (s.username, s.password),
    timeout := s.timeout,
    verify := s.ca_cert,
    accept := "application/yang-data+json" }

/-- The body of a 200-status attempt of `get_client_addresses`:
    `response.json()` (raises when the body is not JSON), then
    `.get('...sisf-db-mac', [])`, then the `len(client_list)` interpolated
    in the debug message. Any raise is caught by the enclosing handler. -/
def gcaAttempt (body? : Option Json) : Except PyErr (Json × Nat) :=
  match body? with
  | none => .error ⟨"JSONDecodeError", "response body is not valid JSON"⟩
  | some body =>
    match dictGet body gcaKey (.arr []) with
    | .error e => .error e
    | .ok cl =>
      match pyLen cl with
      | .error e => .error e
      | .ok n => .ok (cl, n)

/-- The `for try_number in range(self.retry)` loop of
    `get_client_addresses`; on exhaustion returns the empty list. -/
def gcaLoop (s : IosXeWlc) (client : Option String) :
    Nat → Nat → List Outcome → Run Json
  | _, 0, w => ⟨.arr [], w, [], [.gcaExhausted (s.retry + 1) s.timeout]⟩
  | tryNum, fuel + 1, w =>
    let req := gcaRequest s client
    let (o, w') := takeOutcome w
    match o with
    | .exn en em =>
      let r := gcaLoop s client (tryNum + 1) fuel w'
      ⟨r.res, r.world, req :: r.reqs, .gcaFailExn client en em :: r.logs⟩
    | .resp status body? =>
      if status = 200 then
        match gcaAttempt body? with
        | .ok (cl, n) => ⟨cl, w', [req], [.gcaSuccess client n status tryNum]⟩
        | .error e =>
          let r := gcaLoop s client (tryNum + 1) fuel w'
          ⟨r.res, r.world, req :: r.reqs, .gcaFailExn client e.ename e.emsg :: r.logs⟩
      else
        let r := gcaLoop s client (tryNum + 1) fuel w'
        ⟨r.res, r.world, req :: r.reqs, .gcaFailStatus client status tryNum :: r.logs⟩

/-- `IosXeWlc.get_client_addresses`: validate/canonicalize the optional MAC
    filter (the `ValueError` propagates to the caller of this method), then
    run the retry loop. -/
def get_client_addresses (s : IosXeWlc) (client : Option String)
    (w : List Outcome) : ERun Json :=
  match client with
  | none =>
    let r := gcaLoop s none 1 s.retry w
    ⟨.ok r.res, r.world, r.reqs, .gcaStart none :: r.logs, []⟩
  | some raw =>
    match canonMacAddresses raw with
    | .error e => ⟨.error e, w, [], [], []⟩
    | .ok mac =>
      let r := gcaLoop s (some mac) 1 s.retry w
      ⟨.ok r.res, r.world, r.reqs, .gcaStart (some mac) :: r.logs, []⟩

/-- The enrichment loop body of `get_clients` over the records obtained by
    iterating `client_list`: for each record, read `client_obj['client-mac']`
    (`KeyError`/`TypeError` raise), call `get_client_addresses` with it
    (`ValueError` on an invalid MAC and `AttributeError` on a non-string,
    non-`None` value raise; a JSON `null` is Python `None`, so the lookup
    runs unfiltered), and assign the result as `client_obj['ip_addr']`.
    Raises propagate to the retry loop of `get_clients`. -/
def enrichList (s : IosXeWlc) : List Json → List Outcome → ERun (List Json)
  | [], w => ⟨.ok [], w, [], [], []⟩
  | r :: rs, w =>
    match pyGetItem r "client-mac" with
    | .error e => ⟨.error e, w, [], [], []⟩
    | .ok (Json.str mac) =>
      let g := get_client_addresses s (some mac) w
      match g.res with
      | .error e => ⟨.error e, g.world, g.reqs, g.logs, []⟩
      | .ok v =>
        let rest := enrichList s rs g.world
        match rest.res with
        | .error e =>
          ⟨.error e, rest.world, g.reqs ++ rest.reqs, g.logs ++ rest.logs,
           (some mac, v) :: rest.lookups⟩
        | .ok rs' =>
          ⟨.ok (objSet r "ip_addr" v :: rs'), rest.world,
           g.reqs ++ rest.reqs, g.logs ++ rest.logs,
           (some mac, v) :: rest.lookups⟩
    | .ok Json.null =>
      let g := get_client_addresses s none w
      match g.res with
      | .error e => ⟨.error e, g.world, g.reqs, g.logs, []⟩
      | .ok v =>
        let rest := enrichList s rs g.world
        match rest.res with
        | .error e =>
          ⟨.error e, rest.world, g.reqs ++ rest.reqs, g.logs ++ rest.logs,
           (none, v) :: rest.lookups⟩
        | .ok rs' =>
          ⟨.ok (objSet r "ip_addr" v :: rs'), rest.world,
           g.reqs ++ rest.reqs, g.logs ++ rest.logs,
           (none, v) :: rest.lookups⟩
    | .ok _ =>
      ⟨.error ⟨"AttributeError", "object has no attribute replace"⟩, w, [], [], []⟩

/-- `for client_obj in client_list` over the extracted envelope value:
    iterating a list visits its records; iterating a non-empty dict or
    string yields strings whose `['client-mac']` access raises `TypeError`;
    an empty dict or string iterates zero times and `client_list` is
    returned unchanged. (`pyLen` has already ruled out other shapes.) -/
def doEnrich (s : IosXeWlc) (cl : Json) (w : List Outcome) : ERun Json :=
  match cl with
  | .arr xs =>
    let r := enrichList s xs w
    match r.res with
    | .ok xs' => ⟨.ok (.arr xs'), r.world, r.reqs, r.logs, r.lookups⟩
    | .error e => ⟨.error e, r.world, r.reqs, r.logs, r.lookups⟩
  | .obj [] => ⟨.ok cl, w, [], [], []⟩
  | .obj (_ :: _) =>
    ⟨.error ⟨"TypeError", "string indices must be integers"⟩, w, [], [], []⟩
  | .str s' =>
    if s' = "" then ⟨.ok cl, w, [], [], []⟩
    else ⟨.error ⟨"TypeError", "string indices must be integers"⟩, w, [], [], []⟩
  | _ => ⟨.error ⟨"TypeError", "object is not iterable"⟩, w, [], [], []⟩

/-- The body of a 200-status attempt of `get_clients` before enrichment:
    parse the body, `.get('...common-oper-data', [])`, and the
    `len(client_list)` of the debug message. -/
def gcAttempt (body? : Option Json) : Except PyErr (Json × Nat) :=
  match body? with
  | none => .error ⟨"JSONDecodeError", "response body is not valid JSON"⟩
  | some body =>
    match dictGet body gcKey (.arr []) with
    | .error e => .error e
    | .ok cl =>
      match pyLen cl with
      | .error e => .error e
      | .ok n => .ok (cl, n)

/-- The `for try_number in range(self.retry)` loop of `get_clients`.
    On a 200 attempt the success debug entry is logged before enrichment;
    an exception raised during enrichment is caught by the attempt's
    handler, logged as a warning, and the next attempt starts. -/
def gcLoop (s : IosXeWlc) (client : Option String) (get_ip_info : Bool) :
    Nat → Nat → List Outcome → ERun Json
  | _, 0, w => ⟨.ok (.arr []), w, [], [.gcExhausted (s.retry + 1) s.timeout], []⟩
  | tryNum, fuel + 1, w =>
    let req := gcRequest s client
    let (o, w') := takeOutcome w
    match o with
    | .exn en em =>
      let r := gcLoop s client get_ip_info (tryNum + 1) fuel w'
      ⟨r.res, r.world, req :: r.reqs, .gcFailExn client en em :: r.logs, r.lookups⟩
    | .resp status body? =>
      if status = 200 then
        match gcAttempt body? with
        | .error e =>
          let r := gcLoop s client get_ip_info (tryNum + 1) fuel w'
          ⟨r.res, r.world, req :: r.reqs,
           .gcFailExn client e.ename e.emsg :: r.logs, r.lookups⟩
        | .ok (cl, n) =>
          if get_ip_info then
            let en := doEnrich s cl w'
            match en.res with
            | .ok cl' =>
              ⟨.ok cl', en.world, req :: en.reqs,
               .gcSuccess client n status tryNum :: en.logs, en.lookups⟩
            | .error e =>
              let r := gcLoop s client get_ip_info (tryNum + 1) fuel en.world
              ⟨r.res, r.world, req :: (en.reqs ++ r.reqs),
               .gcSuccess client n status tryNum ::
                 (en.logs ++ .gcFailExn client e.ename e.emsg :: r.logs),
               en.lookups ++ r.lookups⟩
          else
            ⟨.ok cl, w', [req], [.gcSuccess client n status tryNum], []⟩
      else
        let r := gcLoop s client get_ip_info (tryNum + 1) fuel w'
        ⟨r.res, r.world, req :: r.reqs,
         .gcFailStatus client status tryNum :: r.logs, r.lookups⟩

/-- `IosXeWlc.get_clients`: validate/canonicalize the optional MAC filter
    (the `ValueError` propagates to the caller), then run the retry loop;
    on exhaustion returns the empty list. -/
def get_clients (s : IosXeWlc) (client : Option String) (get_ip_info : Bool)
    (w : List Outcome) : ERun Json :=
  match client with
  | none =>
    let r := gcLoop s none get_ip_info 1 s.retry w
    ⟨r.res, r.world, r.reqs, .gcStart none :: r.logs, r.lookups⟩
  | some raw =>
    match canonMacClients raw with
    | .error e => ⟨.error e, w, [], [], []⟩
    | .ok mac =>
      let r := gcLoop s (some mac) get_ip_info 1 s.retry w
      ⟨r.res, r.world, r.reqs, .gcStart (some mac) :: r.logs, r.lookups⟩

/-- The value of an enrichment lookup as attached to a record
    (only read under hypotheses that rule out the error case). -/
def exVal : Except PyErr Json → Json
  | .ok j => j
  | .error _ => .null

/-- A chain of independent `get_client_addresses` invocations, one per MAC,
    each starting from the transport stream left by the previous one.
    Used to state that enrichment performs exactly one lookup per record. -/
def lookupChain (s : IosXeWlc) : List String → List Outcome → List Json × List Outcome
  | [], w => ([], w)
  | m :: ms, w =>
    let g := get_client_addresses s (some m) w
    let (vs, w') := lookupChain s ms g.world
    (exVal g.res :: vs, w')

/-- One public operation invocation, for stating properties of whole
    call sequences on an instance. -/
inductive OpCall where
  | upd (username password : String)
  | testOp
  | clientsOp (client : Option String) (get_ip_info : Bool)
  | addressesOp (client : Option String)

/-- Run a sequence of operations on an instance, threading the credential
    state and the mock transport stream, and collect every log entry
    emitted, in order. -/
def runSeq (s : IosXeWlc) (w : List Outcome) : List OpCall → List LogEntry
  | [] => []
  | .upd u p :: rest =>
    let (s', logs) := update_creds s u p
    logs ++ runSeq s' w rest
  | .testOp :: rest =>
    let r := test s w
    r.logs ++ runSeq s r.world rest
  | .clientsOp c g :: rest =>
    let r := get_clients s c g w
    r.logs ++ runSeq s r.world rest
  | .addressesOp c :: rest =>
    let r := get_client_addresses s c w
    r.logs ++ runSeq s r.world rest

/-- A transport outcome that fails an attempt by the claim's two causes:
    a raised exception or a non-200 status. -/
def attemptFails : Outcome → Bool
  | .exn _ _ => true
  | .resp st _ => st != 200

/-- Replace only the password field. -/
def setPwd (s : IosXeWlc) (p : String) : IosXeWlc := { s with password := p }

/-- A record whose enrichment step raises: its `['client-mac']` access
    fails, its MAC value is a non-string non-null, or the MAC string fails
    validation in `get_client_addresses`. -/
def recordLookupRaises (r : Json) : Bool :=
  match pyGetItem r "client-mac" with
  | .error _ => true
  | .ok (.str m) => !(canonMacAddresses m).isOk
  | .ok Json.null => false
  | .ok _ => true

/-- The warning entry `get_clients` logs when an attempt raises. -/
def isGcFailExn : LogEntry → Bool
  | .gcFailExn _ _ _ => true
  | _ => false

/-- Modelled from the claim's wording: the input with only the separator
    characters removed and no lowercasing applied. -/
def strippedNoLower (raw : String) : List Char :=
  raw.toList.filter (fun ch => !(ch = ':' || ch = '-' || ch = '.'))

/-- Modelled from the claim's wording: a lowercase hexadecimal digit. -/
def isLowerHexDigit (ch : Char) : Bool :=
  ('0' ≤ ch && ch ≤ '9') || ('a' ≤ ch && ch ≤ 'f')

lemma testLoop_allFail (s : IosXeWlc) :
    ∀ (f t : Nat) (w : List Outcome), (∀ o ∈ w, attemptFails o = true) →
    (testLoop s t f w).res = false ∧
    (testLoop s t f w).reqs.length = f ∧
    LogEntry.testExhausted (s.retry + 1) s.timeout ∈ (testLoop s t f w).logs := by
  intro f
  induction f with
  | zero => intro t w hw; simp [testLoop]
  | succ f ih =>
    intro t w hw
    match w with
    | [] =>
      have h := ih (t + 1) [] (by simp)
      simp only [testLoop, takeOutcome]
      exact ⟨h.1, by simp [h.2.1], by simp [h.2.2]⟩
    | Outcome.exn en em :: w' =>
      have h := ih (t + 1) w' (fun o ho => hw o (List.mem_cons_of_mem _ ho))
      simp only [testLoop, takeOutcome]
      exact ⟨h.1, by simp [h.2.1], by simp [h.2.2]⟩
    | Outcome.resp st b :: w' =>
      have hst : st ≠ 200 := by
        have := hw _ (List.mem_cons_self _ _)
        simpa [attemptFails] using this
      have h := ih (t + 1) w' (fun o ho => hw o (List.mem_cons_of_mem _ ho))
      simp only [testLoop, takeOutcome, if_neg hst]
      exact ⟨h.1, by simp [h.2.1], by simp [h.2.2]⟩

lemma gcaLoop_allFail (s : IosXeWlc) (c : Option String) :
    ∀ (f t : Nat) (w : List Outcome), (∀ o ∈ w, attemptFails o = true) →
    (gcaLoop s c t f w).res = .arr [] ∧
    (gcaLoop s c t f w).reqs.length = f ∧
    LogEntry.gcaExhausted (s.retry + 1) s.timeout ∈ (gcaLoop s c t f w).logs := by
  intro f
  induction f with
  | zero => intro t w hw; simp [gcaLoop]
  | succ f ih =>
    intro t w hw
    match w with
    | [] =>
      have h := ih (t + 1) [] (by simp)
      simp only [gcaLoop, takeOutcome]
      exact ⟨h.1, by simp [h.2.1], by simp [h.2.2]⟩
    | Outcome.exn en em :: w' =>
      have h := ih (t + 1) w' (fun o ho => hw o (List.mem_cons_of_mem _ ho))
      simp only [gcaLoop, takeOutcome]
      exact ⟨h.1, by simp [h.2.1], by simp [h.2.2]⟩
    | Outcome.resp st b :: w' =>
      have hst : st ≠ 200 := by
        have := hw _ (List.mem_cons_self _ _)
        simpa [attemptFails] using this
      have h := ih (t + 1) w' (fun o ho => hw o (List.mem_cons_of_mem _ ho))
      simp only [gcaLoop, takeOutcome, if_neg hst]
      exact ⟨h.1, by simp [h.2.1], by simp [h.2.2]⟩

lemma gcLoop_allFail (s : IosXeWlc) (c : Option String) (gi : Bool) :
    ∀ (f t : Nat) (w : List Outcome), (∀ o ∈ w, attemptFails o = true) →
    (gcLoop s c gi t f w).res = .ok (.arr []) ∧
    (gcLoop s c gi t f w).reqs.length = f ∧
    LogEntry.gcExhausted (s.retry + 1) s.timeout ∈ (gcLoop s c gi t f w).logs := by
  intro f
  induction f with
  | zero => intro t w hw; simp [gcLoop]
  | succ f ih =>
    intro t w hw
    match w with
    | [] =>
      have h := ih (t + 1) [] (by simp)
      simp only [gcLoop, takeOutcome]
      exact ⟨h.1, by simp [h.2.1], by simp [h.2.2]⟩
    | Outcome.exn en em :: w' =>
      have h := ih (t + 1) w' (fun o ho => hw o (List.mem_cons_of_mem _ ho))
      simp only [gcLoop, takeOutcome]
      exact ⟨h.1, by simp [h.2.1], by simp [h.2.2]⟩
    | Outcome.resp st b :: w' =>
      have hst : st ≠ 200 := by
        have := hw _ (List.mem_cons_self _ _)
        simpa [attemptFails] using this
      have h := ih (t + 1) w' (fun o ho => hw o (List.mem_cons_of_mem _ ho))
      simp only [gcLoop, takeOutcome, if_neg hst]
      exact ⟨h.1, by simp [h.2.1], by simp [h.2.2]⟩

lemma testLoop_failPfx (s : IosXeWlc) :
    ∀ (wf : List Outcome) (f t : Nat) (body? : Option Json) (rest : List Outcome),
    (∀ o ∈ wf, attemptFails o = true) → wf.length < f →
    (testLoop s t f (wf ++ .resp 200 body? :: rest)).res = true ∧
    (testLoop s t f (wf ++ .resp 200 body? :: rest)).world = rest ∧
    (testLoop s t f (wf ++ .resp 200 body? :: rest)).reqs.length = wf.length + 1 := by
  intro wf
  induction wf with
  | nil =>
    intro f t body? rest _ hf
    match f, hf with
    | f + 1, _ => simp [testLoop, takeOutcome]
  | cons o wf ih =>
    intro f t body? rest hw hf
    match f, hf with
    | f + 1, hf =>
      have hlt : wf.length < f := by simpa using hf
      have h := ih f (t + 1) body? rest (fun o ho => hw o (List.mem_cons_of_mem _ ho)) hlt
      match o with
      | Outcome.exn en em =>
        simp only [testLoop, takeOutcome, List.cons_append]
        exact ⟨h.1, by simp [h.2.1], by simp [h.2.2]⟩
      | Outcome.resp st b =>
        have hst : st ≠ 200 := by
          have := hw _ (List.mem_cons_self _ _)
          simpa [attemptFails] using this
        simp only [testLoop, takeOutcome, List.cons_append, if_neg hst]
        exact ⟨h.1, by simp [h.2.1], by simp [h.2.2]⟩

lemma gcaLoop_failPfx (s : IosXeWlc) (c : Option String) :
    ∀ (wf : List Outcome) (f t : Nat) (kvs : List (String × Json)) (rest : List Outcome),
    (∀ o ∈ wf, attemptFails o = true) → wf.length < f →
    jsonLookup kvs gcaKey = none →
    (gcaLoop s c t f (wf ++ .resp 200 (some (.obj kvs)) :: rest)).res = .arr [] ∧
    (gcaLoop s c t f (wf ++ .resp 200 (some (.obj kvs)) :: rest)).world = rest ∧
    (gcaLoop s c t f (wf ++ .resp 200 (some (.obj kvs)) :: rest)).reqs.length = wf.length + 1 := by
  intro wf
  induction wf with
  | nil =>
    intro f t kvs rest _ hf hkey
    match f, hf with
    | f + 1, _ =>
      simp [gcaLoop, takeOutcome, gcaAttempt, dictGet, hkey, pyLen]
  | cons o wf ih =>
    intro f t kvs rest hw hf hkey
    match f, hf with
    | f + 1, hf =>
      have hlt : wf.length < f := by simpa using hf
      have h := ih f (t + 1) kvs rest (fun o ho => hw o (List.mem_cons_of_mem _ ho)) hlt hkey
      match o with
      | Outcome.exn en em =>
        simp only [gcaLoop, takeOutcome, List.cons_append]
        exact ⟨h.1, by simp [h.2.1], by simp [h.2.2]⟩
      | Outcome.resp st b =>
        have hst : st ≠ 200 := by
          have := hw _ (List.mem_cons_self _ _)
          simpa [attemptFails] using this
        simp only [gcaLoop, takeOutcome, List.cons_append, if_neg hst]
        exact ⟨h.1, by simp [h.2.1], by simp [h.2.2]⟩

lemma gcLoop_failPfx (s : IosXeWlc) (c : Option String) (gi : Bool) :
    ∀ (wf : List Outcome) (f t : Nat) (kvs : List (String × Json)) (rest : List Outcome),
    (∀ o ∈ wf, attemptFails o = true) → wf.length < f →
    jsonLookup kvs gcKey = none →
    (gcLoop s c gi t f (wf ++ .resp 200 (some (.obj kvs)) :: rest)).res = .ok (.arr []) ∧
    (gcLoop s c gi t f (wf ++ .resp 200 (some (.obj kvs)) :: rest)).world = rest ∧
    (gcLoop s c gi t f (wf ++ .resp 200 (some (.obj kvs)) :: rest)).reqs.length = wf.length + 1 := by
  intro wf
  induction wf with
  | nil =>
    intro f t kvs rest _ hf hkey
    match f, hf with
    | f + 1, _ =>
      cases gi <;>
        simp [gcLoop, takeOutcome, gcAttempt, dictGet, hkey, pyLen, doEnrich, enrichList]
  | cons o wf ih =>
    intro f t kvs rest hw hf hkey
    match f, hf with
    | f + 1, hf =>
      have hlt : wf.length < f := by simpa using hf
      have h := ih f (t + 1) kvs rest (fun o ho => hw o (List.mem_cons_of_mem _ ho)) hlt hkey
      match o with
      | Outcome.exn en em =>
        simp only [gcLoop, takeOutcome, List.cons_append]
        exact ⟨h.1, by simp [h.2.1], by simp [h.2.2]⟩
      | Outcome.resp st b =>
        have hst : st ≠ 200 := by
          have := hw _ (List.mem_cons_self _ _)
          simpa [attemptFails] using this
        simp only [gcLoop, takeOutcome, List.cons_append, if_neg hst]
        exact ⟨h.1, by simp [h.2.1], by simp [h.2.2]⟩

/-- C1: with a mock transport in which all `retry` attempts fail (non-200
    status or raised exception), each operation makes exactly `retry`
    transport attempts, raises nothing to the caller, and returns `false`
    for `test` and the empty list for `get_clients` and
    `get_client_addresses`. -/
theorem retry_exhaustion_negative_result (s : IosXeWlc) (w : List Outcome) (gi : Bool)
    (hw : ∀ o ∈ w, attemptFails o = true) :
    (test s w).res = false ∧
    (test s w).reqs.length = s.retry ∧
    (get_clients s none gi w).res = .ok (.arr []) ∧
    (get_clients s none gi w).reqs.length = s.retry ∧
    (get_client_addresses s none w).res = .ok (.arr []) ∧
    (get_client_addresses s none w).reqs.length = s.retry := by
  have ht := testLoop_allFail s s.retry 1 w hw
  have hc := gcLoop_allFail s none gi s.retry 1 w hw
  have ha := gcaLoop_allFail s none s.retry 1 w hw
  exact ⟨by simp [test, ht.1], by simp [test, ht.2.1],
         by simp [get_clients, hc.1], by simp [get_clients, hc.2.1],
         by simp [get_client_addresses, ha.1], by simp [get_client_addresses, ha.2.1]⟩

/-- Witness for C1 at a concrete always-failing transport. -/
theorem retry_exhaustion_negative_result_witness :
    (∀ o ∈ [Outcome.exn "Timeout" "timed out"], attemptFails o = true) ∧
    ((test (init "h" "u" "p" none) [Outcome.exn "Timeout" "timed out"]).res = false ∧
     (test (init "h" "u" "p" none) [Outcome.exn "Timeout" "timed out"]).reqs.length =
       (init "h" "u" "p" none).retry ∧
     (get_clients (init "h" "u" "p" none) none true [Outcome.exn "Timeout" "timed out"]).res =
       .ok (.arr []) ∧
     (get_clients (init "h" "u" "p" none) none true [Outcome.exn "Timeout" "timed out"]).reqs.length =
       (init "h" "u" "p" none).retry ∧
     (get_client_addresses (init "h" "u" "p" none) none [Outcome.exn "Timeout" "timed out"]).res =
       .ok (.arr []) ∧
     (get_client_addresses (init "h" "u" "p" none) none [Outcome.exn "Timeout" "timed out"]).reqs.length =
       (init "h" "u" "p" none).retry) :=
  ⟨by intro o ho; rw [List.mem_singleton] at ho; subst ho; rfl,
   retry_exhaustion_negative_result (init "h" "u" "p" none)
     [Outcome.exn "Timeout" "timed out"] true
     (by intro o ho; rw [List.mem_singleton] at ho; subst ho; rfl)⟩

/-- C8: the attempt loop performs exactly `retry` transport attempts,
    while the exhaustion error entry reports `retry + 1` attempts. -/
theorem retry_count_and_reported_count (s : IosXeWlc) (w : List Outcome) (gi : Bool)
    (hw : ∀ o ∈ w, attemptFails o = true) :
    (test s w).reqs.length = s.retry ∧
    LogEntry.testExhausted (s.retry + 1) s.timeout ∈ (test s w).logs ∧
    (get_clients s none gi w).reqs.length = s.retry ∧
    LogEntry.gcExhausted (s.retry + 1) s.timeout ∈ (get_clients s none gi w).logs ∧
    (get_client_addresses s none w).reqs.length = s.retry ∧
    LogEntry.gcaExhausted (s.retry + 1) s.timeout ∈ (get_client_addresses s none w).logs := by
  have ht := testLoop_allFail s s.retry 1 w hw
  have hc := gcLoop_allFail s none gi s.retry 1 w hw
  have ha := gcaLoop_allFail s none s.retry 1 w hw
  exact ⟨by simp [test, ht.2.1], by simp [test, ht.2.2],
         by simp [get_clients, hc.2.1], by simp [get_clients, hc.2.2],
         by simp [get_client_addresses, ha.2.1], by simp [get_client_addresses, ha.2.2]⟩

/-- Witness for C8 at a concrete failing transport. -/
theorem retry_count_and_reported_count_witness :
    (∀ o ∈ [Outcome.resp 403 none], attemptFails o = true) ∧
    ((test (init "h" "u" "p" none) [Outcome.resp 403 none]).reqs.length =
       (init "h" "u" "p" none).retry ∧
     LogEntry.testExhausted ((init "h" "u" "p" none).retry + 1) (init "h" "u" "p" none).timeout ∈
       (test (init "h" "u" "p" none) [Outcome.resp 403 none]).logs ∧
     (get_clients (init "h" "u" "p" none) none false [Outcome.resp 403 none]).reqs.length =
       (init "h" "u" "p" none).retry ∧
     LogEntry.gcExhausted ((init "h" "u" "p" none).retry + 1) (init "h" "u" "p" none).timeout ∈
       (get_clients (init "h" "u" "p" none) none false [Outcome.resp 403 none]).logs ∧
     (get_client_addresses (init "h" "u" "p" none) none [Outcome.resp 403 none]).reqs.length =
       (init "h" "u" "p" none).retry ∧
     LogEntry.gcaExhausted ((init "h" "u" "p" none).retry + 1) (init "h" "u" "p" none).timeout ∈
       (get_client_addresses (init "h" "u" "p" none) none [Outcome.resp 403 none]).logs) :=
  ⟨by intro o ho; rw [List.mem_singleton] at ho; subst ho; rfl,
   retry_count_and_reported_count (init "h" "u" "p" none) [Outcome.resp 403 none] false
     (by intro o ho; rw [List.mem_singleton] at ho; subst ho; rfl)⟩

/-- C5: a 200 response whose JSON body lacks the fixed envelope key
    makes the listing operation return the empty list with no error and no
    further attempt. -/
theorem envelope_key_absent_yields_empty (s : IosXeWlc)
    (kvs kvs' : List (String × Json)) (rest : List Outcome) (gi : Bool)
    (hr : 0 < s.retry)
    (h1 : jsonLookup kvs gcKey = none) (h2 : jsonLookup kvs' gcaKey = none) :
    (get_clients s none gi (.resp 200 (some (.obj kvs)) :: rest)).res = .ok (.arr []) ∧
    (get_clients s none gi (.resp 200 (some (.obj kvs)) :: rest)).world = rest ∧
    (get_clients s none gi (.resp 200 (some (.obj kvs)) :: rest)).reqs.length = 1 ∧
    (get_client_addresses s none (.resp 200 (some (.obj kvs')) :: rest)).res = .ok (.arr []) ∧
    (get_client_addresses s none (.resp 200 (some (.obj kvs')) :: rest)).world = rest ∧
    (get_client_addresses s none (.resp 200 (some (.obj kvs')) :: rest)).reqs.length = 1 := by
  have hc := gcLoop_failPfx s none gi [] s.retry 1 kvs rest (by simp) hr h1
  have ha := gcaLoop_failPfx s none [] s.retry 1 kvs' rest (by simp) hr h2
  simp only [List.nil_append, List.length_nil] at hc ha
  exact ⟨by simp [get_clients, hc.1], by simp [get_clients, hc.2.1],
         by simp [get_clients, hc.2.2],
         by simp [get_client_addresses, ha.1], by simp [get_client_addresses, ha.2.1],
         by simp [get_client_addresses, ha.2.2]⟩

/-- Witness for C5 at a concrete body without the envelope keys. -/
theorem envelope_key_absent_yields_empty_witness :
    (0 < (init "h" "u" "p" none).retry ∧
     jsonLookup [("other", Json.num 1)] gcKey = none ∧
     jsonLookup [("other", Json.num 1)] gcaKey = none) ∧
    ((get_clients (init "h" "u" "p" none) none true
        (.resp 200 (some (.obj [("other", Json.num 1)])) :: [])).res = .ok (.arr []) ∧
     (get_clients (init "h" "u" "p" none) none true
        (.resp 200 (some (.obj [("other", Json.num 1)])) :: [])).world = [] ∧
     (get_clients (init "h" "u" "p" none) none true
        (.resp 200 (some (.obj [("other", Json.num 1)])) :: [])).reqs.length = 1 ∧
     (get_client_addresses (init "h" "u" "p" none) none
        (.resp 200 (some (.obj [("other", Json.num 1)])) :: [])).res = .ok (.arr []) ∧
     (get_client_addresses (init "h" "u" "p" none) none
        (.resp 200 (some (.obj [("other", Json.num 1)])) :: [])).world = [] ∧
     (get_client_addresses (init "h" "u" "p" none) none
        (.resp 200 (some (.obj [("other", Json.num 1)])) :: [])).reqs.length = 1) :=
  ⟨⟨by decide, rfl, rfl⟩,
   envelope_key_absent_yields_empty (init "h" "u" "p" none)
     [("other", Json.num 1)] [("other", Json.num 1)] [] true (by decide) rfl rfl⟩

lemma testLoop_auth (s : IosXeWlc) :
    ∀ (f t : Nat) (w : List Outcome) (r : Request), r ∈ (testLoop s t f w).reqs →
    r.auth = (s.username, s.password) := by
  intro f
  induction f with
  | zero => intro t w r hr; simp [testLoop] at hr
  | succ f ih =>
    intro t w r hr
    match w with
    | [] =>
      simp only [testLoop, takeOutcome] at hr
      rcases List.mem_cons.mp hr with h | h
      · subst h; rfl
      · exact ih (t + 1) [] r h
    | Outcome.exn en em :: w' =>
      simp only [testLoop, takeOutcome] at hr
      rcases List.mem_cons.mp hr with h | h
      · subst h; rfl
      · exact ih (t + 1) w' r h
    | Outcome.resp st b :: w' =>
      by_cases hst : st = 200
      · subst hst
        simp [testLoop, takeOutcome] at hr
        subst hr; rfl
      · simp only [testLoop, takeOutcome, if_neg hst] at hr
        rcases List.mem_cons.mp hr with h | h
        · subst h; rfl
        · exact ih (t + 1) w' r h

lemma gcaLoop_auth (s : IosXeWlc) (c : Option String) :
    ∀ (f t : Nat) (w : List Outcome) (r : Request), r ∈ (gcaLoop s c t f w).reqs →
    r.auth = (s.username, s.password) := by
  intro f
  induction f with
  | zero => intro t w r hr; simp [gcaLoop] at hr
  | succ f ih =>
    intro t w r hr
    match w with
    | [] =>
      simp only [gcaLoop, takeOutcome] at hr
      rcases List.mem_cons.mp hr with h | h
      · subst h; rfl
      · exact ih (t + 1) [] r h
    | Outcome.exn en em :: w' =>
      simp only [gcaLoop, takeOutcome] at hr
      rcases List.mem_cons.mp hr with h | h
      · subst h; rfl
      · exact ih (t + 1) w' r h
    | Outcome.resp st b :: w' =>
      by_cases hst : st = 200
      · subst hst
        rcases hatt : gcaAttempt b with e | cl
        · simp [gcaLoop, takeOutcome, hatt] at hr
          rcases hr with h | h
          · subst h; rfl
          · exact ih (t + 1) w' r h
        · simp [gcaLoop, takeOutcome, hatt] at hr
          subst hr; rfl
      · simp only [gcaLoop, takeOutcome, if_neg hst] at hr
        rcases List.mem_cons.mp hr with h | h
        · subst h; rfl
        · exact ih (t + 1) w' r h

lemma get_client_addresses_auth (s : IosXeWlc) (c : Option String)
    (w : List Outcome) (r : Request) (hr : r ∈ (get_client_addresses s c w).reqs) :
    r.auth = (s.username, s.password) := by
  match c with
  | none =>
    simp only [get_client_addresses] at hr
    exact gcaLoop_auth s none s.retry 1 w r hr
  | some raw =>
    simp only [get_client_addresses] at hr
    rcases hcanon : canonMacAddresses raw with e | mac
    · rw [hcanon] at hr; simp at hr
    · rw [hcanon] at hr
      exact gcaLoop_auth s (some mac) s.retry 1 w r hr

lemma enrichList_auth (s : IosXeWlc) :
    ∀ (rs : List Json) (w : List Outcome) (r : Request), r ∈ (enrichList s rs w).reqs →
    r.auth = (s.username, s.password) := by
  intro rs
  induction rs with
  | nil => intro w r hr; simp [enrichList] at hr
  | cons rc rs ih =>
    intro w r hr
    rcases hget : pyGetItem rc "client-mac" with e | v
    · simp [enrichList, hget] at hr
    · match v with
      | Json.str mac =>
        rcases hres : (get_client_addresses s (some mac) w).res with e | v'
        · simp only [enrichList, hget, hres] at hr
          exact get_client_addresses_auth s (some mac) w r hr
        · rcases hrest : (enrichList s rs (get_client_addresses s (some mac) w).world).res with e' | rs'
          · simp only [enrichList, hget, hres, hrest] at hr
            rcases List.mem_append.mp hr with h | h
            · exact get_client_addresses_auth s (some mac) w r h
            · exact ih _ r h
          · simp only [enrichList, hget, hres, hrest] at hr
            rcases List.mem_append.mp hr with h | h
            · exact get_client_addresses_auth s (some mac) w r h
            · exact ih _ r h
      | Json.null =>
        rcases hres : (get_client_addresses s none w).res with e | v'
        · simp only [enrichList, hget, hres] at hr
          exact get_client_addresses_auth s none w r hr
        · rcases hrest : (enrichList s rs (get_client_addresses s none w).world).res with e' | rs'
          · simp only [enrichList, hget, hres, hrest] at hr
            rcases List.mem_append.mp hr with h | h
            · exact get_client_addresses_auth s none w r h
            · exact ih _ r h
          · simp only [enrichList, hget, hres, hrest] at hr
            rcases List.mem_append.mp hr with h | h
            · exact get_client_addresses_auth s none w r h
            · exact ih _ r h
      | Json.bool b => simp [enrichList, hget] at hr
      | Json.num n => simp [enrichList, hget] at hr
      | Json.arr xs => simp [enrichList, hget] at hr
      | Json.obj kvs => simp [enrichList, hget] at hr

lemma doEnrich_auth (s : IosXeWlc) (cl : Json) (w : List Outcome) (r : Request)
    (hr : r ∈ (doEnrich s cl w).reqs) : r.auth = (s.username, s.password) := by
  match cl with
  | Json.arr xs =>
    rcases hres : (enrichList s xs w).res with e | xs'
    · simp only [doEnrich, hres] at hr
      exact enrichList_auth s xs w r hr
    · simp only [doEnrich, hres] at hr
      exact enrichList_auth s xs w r hr
  | Json.obj [] => simp [doEnrich] at hr
  | Json.obj (kv :: kvs) => simp [doEnrich] at hr
  | Json.str s' =>
    by_cases hs' : s' = ""
    · simp [doEnrich, hs'] at hr
    · simp [doEnrich, hs'] at hr
  | Json.null => simp [doEnrich] at hr
  | Json.bool b => simp [doEnrich] at hr
  | Json.num n => simp [doEnrich] at hr

lemma gcLoop_auth (s : IosXeWlc) (c : Option String) (gi : Bool) :
    ∀ (f t : Nat) (w : List Outcome) (r : Request), r ∈ (gcLoop s c gi t f w).reqs →
    r.auth = (s.username, s.password) := by
  intro f
  induction f with
  | zero => intro t w r hr; simp [gcLoop] at hr
  | succ f ih =>
    intro t w r hr
    have hstep : ∀ (w₀ : List Outcome) (o : Outcome),
        takeOutcome w = (o, w₀) → r.auth = (s.username, s.password) := by
      intro w₀ o htake
      match o with
      | Outcome.exn en em =>
        simp only [gcLoop, htake] at hr
        rcases List.mem_cons.mp hr with h | h
        · subst h; rfl
        · exact ih (t + 1) w₀ r h
      | Outcome.resp st b =>
        by_cases hst : st = 200
        · subst hst
          rcases hatt : gcAttempt b with e | cln
          · simp [gcLoop, htake, hatt] at hr
            rcases hr with h | h
            · subst h; rfl
            · exact ih (t + 1) w₀ r h
          · obtain ⟨cl, n⟩ := cln
            by_cases hgi : gi = true
            · subst hgi
              rcases hen : (doEnrich s cl w₀).res with e | cl'
              · simp [gcLoop, htake, hatt, hen] at hr
                rcases hr with h | h
                · subst h; rfl
                · rcases h with h' | h'
                  · exact doEnrich_auth s cl w₀ r h'
                  · exact ih (t + 1) _ r h'
              · simp [gcLoop, htake, hatt, hen] at hr
                rcases hr with h | h
                · subst h; rfl
                · exact doEnrich_auth s cl w₀ r h
            · have hgi' : gi = false := by simpa using hgi
              subst hgi'
              simp [gcLoop, htake, hatt] at hr
              subst hr; rfl
        · simp only [gcLoop, htake] at hr
          rw [if_neg hst] at hr
          rcases List.mem_cons.mp hr with h | h
          · subst h; rfl
          · exact ih (t + 1) w₀ r h
    match w with
    | [] => exact hstep [] (.exn "ConnectionError" "no response from transport") rfl
    | o :: w' => exact hstep w' o rfl

lemma test_auth (s : IosXeWlc) (w : List Outcome) (r : Request)
    (hr : r ∈ (test s w).reqs) : r.auth = (s.username, s.password) :=
  testLoop_auth s s.retry 1 w r hr

lemma get_clients_auth (s : IosXeWlc) (c : Option String) (gi : Bool)
    (w : List Outcome) (r : Request) (hr : r ∈ (get_clients s c gi w).reqs) :
    r.auth = (s.username, s.password) := by
  match c with
  | none =>
    simp only [get_clients] at hr
    exact gcLoop_auth s none gi s.retry 1 w r hr
  | some raw =>
    rcases hcanon : canonMacClients raw with e | mac
    · simp [get_clients, hcanon] at hr
    · simp only [get_clients, hcanon] at hr
      exact gcLoop_auth s (some mac) gi s.retry 1 w r hr

/-- C7: `update_creds` replaces exactly the username and password,
    leaves host, CA certificate, timeout and retry unchanged, and every
    request issued by any subsequent operation authenticates with the new
    credentials. -/
theorem update_creds_frame_and_new_auth (s : IosXeWlc) (u p : String) :
    (update_creds s u p).1.username = u ∧
    (update_creds s u p).1.password = p ∧
    (update_creds s u p).1.host = s.host ∧
    (update_creds s u p).1.ca_cert = s.ca_cert ∧
    (update_creds s u p).1.timeout = s.timeout ∧
    (update_creds s u p).1.retry = s.retry ∧
    (∀ (w : List Outcome) (r : Request), r ∈ (test (update_creds s u p).1 w).reqs →
      r.auth = (u, p)) ∧
    (∀ (c : Option String) (gi : Bool) (w : List Outcome) (r : Request),
      r ∈ (get_clients (update_creds s u p).1 c gi w).reqs → r.auth = (u, p)) ∧
    (∀ (c : Option String) (w : List Outcome) (r : Request),
      r ∈ (get_client_addresses (update_creds s u p).1 c w).reqs → r.auth = (u, p)) :=
  ⟨rfl, rfl, rfl, rfl, rfl, rfl,
   fun w r hr => test_auth _ w r hr,
   fun c gi w r hr => get_clients_auth _ c gi w r hr,
   fun c w r hr => get_client_addresses_auth _ c w r hr⟩

/-- Witness for C7: a concrete request after a credential update. -/
theorem update_creds_frame_and_new_auth_witness :
    (testRequest (update_creds (init "h" "u0" "p0" none) "u2" "p2").1 ∈
      (test (update_creds (init "h" "u0" "p0" none) "u2" "p2").1 []).reqs) ∧
    (testRequest (update_creds (init "h" "u0" "p0" none) "u2" "p2").1).auth = ("u2", "p2") :=
  ⟨by decide,
   (update_creds_frame_and_new_auth (init "h" "u0" "p0" none) "u2" "p2").2.2.2.2.2.2.1
     [] _ (by decide)⟩

lemma testLoop_pwd (s : IosXeWlc) (p : String) :
    ∀ (f t : Nat) (w : List Outcome),
    (testLoop (setPwd s p) t f w).res = (testLoop s t f w).res ∧
    (testLoop (setPwd s p) t f w).world = (testLoop s t f w).world ∧
    (testLoop (setPwd s p) t f w).logs = (testLoop s t f w).logs := by
  intro f
  induction f with
  | zero => intro t w; simp [testLoop, setPwd]
  | succ f ih =>
    intro t w
    match w with
    | [] =>
      have h := ih (t + 1) []
      simp only [testLoop, takeOutcome]
      exact ⟨h.1, h.2.1, by simp [h.2.2]⟩
    | Outcome.exn en em :: w' =>
      have h := ih (t + 1) w'
      simp only [testLoop, takeOutcome]
      exact ⟨h.1, h.2.1, by simp [h.2.2]⟩
    | Outcome.resp st b :: w' =>
      by_cases hst : st = 200
      · subst hst
        simp [testLoop, takeOutcome]
      · have h := ih (t + 1) w'
        simp only [testLoop, takeOutcome, if_neg hst]
        exact ⟨h.1, h.2.1, by simp [h.2.2]⟩

lemma gcaLoop_pwd (s : IosXeWlc) (p : String) (c : Option String) :
    ∀ (f t : Nat) (w : List Outcome),
    (gcaLoop (setPwd s p) c t f w).res = (gcaLoop s c t f w).res ∧
    (gcaLoop (setPwd s p) c t f w).world = (gcaLoop s c t f w).world ∧
    (gcaLoop (setPwd s p) c t f w).logs = (gcaLoop s c t f w).logs := by
  intro f
  induction f with
  | zero => intro t w; simp [gcaLoop, setPwd]
  | succ f ih =>
    intro t w
    match w with
    | [] =>
      have h := ih (t + 1) []
      simp only [gcaLoop, takeOutcome]
      exact ⟨h.1, h.2.1, by simp [h.2.2]⟩
    | Outcome.exn en em :: w' =>
      have h := ih (t + 1) w'
      simp only [gcaLoop, takeOutcome]
      exact ⟨h.1, h.2.1, by simp [h.2.2]⟩
    | Outcome.resp st b :: w' =>
      by_cases hst : st = 200
      · subst hst
        rcases hatt : gcaAttempt b with e | cln
        · have h := ih (t + 1) w'
          simp [gcaLoop, takeOutcome, hatt, h.1, h.2.1, h.2.2]
        · obtain ⟨cl, n⟩ := cln
          simp [gcaLoop, takeOutcome, hatt]
      · have h := ih (t + 1) w'
        simp only [gcaLoop, takeOutcome, if_neg hst]
        exact ⟨h.1, h.2.1, by simp [h.2.2]⟩

lemma get_client_addresses_pwd (s : IosXeWlc) (p : String) (c : Option String)
    (w : List Outcome) :
    (get_client_addresses (setPwd s p) c w).res = (get_client_addresses s c w).res ∧
    (get_client_addresses (setPwd s p) c w).world = (get_client_addresses s c w).world ∧
    (get_client_addresses (setPwd s p) c w).logs = (get_client_addresses s c w).logs := by
  match c with
  | none =>
    have h := gcaLoop_pwd s p none s.retry 1 w
    have hretry : (setPwd s p).retry = s.retry := rfl
    simp only [get_client_addresses, hretry]
    exact ⟨by simp [h.1], h.2.1, by simp [h.2.2]⟩
  | some raw =>
    rcases hcanon : canonMacAddresses raw with e | mac
    · simp [get_client_addresses, hcanon]
    · have h := gcaLoop_pwd s p (some mac) s.retry 1 w
      have hretry : (setPwd s p).retry = s.retry := rfl
      simp only [get_client_addresses, hcanon, hretry]
      exact ⟨by simp [h.1], h.2.1, by simp [h.2.2]⟩

lemma enrichList_pwd (s : IosXeWlc) (p : String) :
    ∀ (rs : List Json) (w : List Outcome),
    (enrichList (setPwd s p) rs w).res = (enrichList s rs w).res ∧
    (enrichList (setPwd s p) rs w).world = (enrichList s rs w).world ∧
    (enrichList (setPwd s p) rs w).logs = (enrichList s rs w).logs := by
  intro rs
  induction rs with
  | nil => intro w; simp [enrichList]
  | cons rc rs ih =>
    intro w
    rcases hget : pyGetItem rc "client-mac" with e | v
    · simp [enrichList, hget]
    · match v with
      | Json.str mac =>
        have hg := get_client_addresses_pwd s p (some mac) w
        rcases hres : (get_client_addresses s (some mac) w).res with e | v'
        · rw [hres] at hg
          simp only [enrichList, hget, hres, hg.1]
          exact ⟨by trivial, hg.2.1, hg.2.2⟩
        · rw [hres] at hg
          have hrec := ih (get_client_addresses s (some mac) w).world
          rcases hrest : (enrichList s rs (get_client_addresses s (some mac) w).world).res with e' | rs'
          · rw [hrest] at hrec
            simp only [enrichList, hget, hres, hrest, hg.1, hg.2.1, hrec.1]
            exact ⟨by trivial, hrec.2.1, by rw [hg.2.2, hrec.2.2]⟩
          · rw [hrest] at hrec
            simp only [enrichList, hget, hres, hrest, hg.1, hg.2.1, hrec.1]
            exact ⟨by trivial, hrec.2.1, by rw [hg.2.2, hrec.2.2]⟩
      | Json.null =>
        have hg := get_client_addresses_pwd s p none w
        rcases hres : (get_client_addresses s none w).res with e | v'
        · rw [hres] at hg
          simp only [enrichList, hget, hres, hg.1]
          exact ⟨by trivial, hg.2.1, hg.2.2⟩
        · rw [hres] at hg
          have hrec := ih (get_client_addresses s none w).world
          rcases hrest : (enrichList s rs (get_client_addresses s none w).world).res with e' | rs'
          · rw [hrest] at hrec
            simp only [enrichList, hget, hres, hrest, hg.1, hg.2.1, hrec.1]
            exact ⟨by trivial, hrec.2.1, by rw [hg.2.2, hrec.2.2]⟩
          · rw [hrest] at hrec
            simp only [enrichList, hget, hres, hrest, hg.1, hg.2.1, hrec.1]
            exact ⟨by trivial, hrec.2.1, by rw [hg.2.2, hrec.2.2]⟩
      | Json.bool b => simp [enrichList, hget]
      | Json.num n => simp [enrichList, hget]
      | Json.arr xs => simp [enrichList, hget]
      | Json.obj kvs => simp [enrichList, hget]

lemma doEnrich_pwd (s : IosXeWlc) (p : String) (cl : Json) (w : List Outcome) :
    (doEnrich (setPwd s p) cl w).res = (doEnrich s cl w).res ∧
    (doEnrich (setPwd s p) cl w).world = (doEnrich s cl w).world ∧
    (doEnrich (setPwd s p) cl w).logs = (doEnrich s cl w).logs := by
  match cl with
  | Json.arr xs =>
    have h := enrichList_pwd s p xs w
    rcases hres : (enrichList s xs w).res with e | xs'
    · rw [hres] at h
      simp only [doEnrich, hres, h.1]
      exact ⟨by trivial, h.2.1, h.2.2⟩
    · rw [hres] at h
      simp only [doEnrich, hres, h.1]
      exact ⟨by trivial, h.2.1, h.2.2⟩
  | Json.obj [] => simp [doEnrich]
  | Json.obj (kv :: kvs) => simp [doEnrich]
  | Json.str s' => by_cases hs' : s' = "" <;> simp [doEnrich, hs']
  | Json.null => simp [doEnrich]
  | Json.bool b => simp [doEnrich]
  | Json.num n => simp [doEnrich]

lemma gcLoop_pwd (s : IosXeWlc) (p : String) (c : Option String) (gi : Bool) :
    ∀ (f t : Nat) (w : List Outcome),
    (gcLoop (setPwd s p) c gi t f w).res = (gcLoop s c gi t f w).res ∧
    (gcLoop (setPwd s p) c gi t f w).world = (gcLoop s c gi t f w).world ∧
    (gcLoop (setPwd s p) c gi t f w).logs = (gcLoop s c gi t f w).logs := by
  intro f
  induction f with
  | zero => intro t w; simp [gcLoop, setPwd]
  | succ f ih =>
    intro t w
    have hstep : ∀ (w₀ : List Outcome) (o : Outcome), takeOutcome w = (o, w₀) →
        (gcLoop (setPwd s p) c gi t (f + 1) w).res = (gcLoop s c gi t (f + 1) w).res ∧
        (gcLoop (setPwd s p) c gi t (f + 1) w).world = (gcLoop s c gi t (f + 1) w).world ∧
        (gcLoop (setPwd s p) c gi t (f + 1) w).logs = (gcLoop s c gi t (f + 1) w).logs := by
      intro w₀ o htake
      match o with
      | Outcome.exn en em =>
        have h := ih (t + 1) w₀
        simp [gcLoop, htake, h.1, h.2.1, h.2.2]
      | Outcome.resp st b =>
        by_cases hst : st = 200
        · subst hst
          rcases hatt : gcAttempt b with e | cln
          · have h := ih (t + 1) w₀
            simp [gcLoop, htake, hatt, h.1, h.2.1, h.2.2]
          · obtain ⟨cl, n⟩ := cln
            by_cases hgi : gi = true
            · subst hgi
              have hd := doEnrich_pwd s p cl w₀
              rcases hen : (doEnrich s cl w₀).res with e | cl'
              · rw [hen] at hd
                have h := ih (t + 1) (doEnrich s cl w₀).world
                simp [gcLoop, htake, hatt, hen, hd.1, hd.2.1, hd.2.2, h.1, h.2.1, h.2.2]
              · rw [hen] at hd
                simp [gcLoop, htake, hatt, hen, hd.1, hd.2.1, hd.2.2]
            · have hgi' : gi = false := by simpa using hgi
              subst hgi'
              simp [gcLoop, htake, hatt]
        · have h := ih (t + 1) w₀
          simp only [gcLoop, htake, if_neg hst]
          exact ⟨h.1, h.2.1, by simp [h.2.2]⟩
    match w with
    | [] => exact hstep [] (.exn "ConnectionError" "no response from transport") rfl
    | o :: w' => exact hstep w' o rfl

lemma test_pwd (s : IosXeWlc) (p : String) (w : List Outcome) :
    (test (setPwd s p) w).res = (test s w).res ∧
    (test (setPwd s p) w).world = (test s w).world ∧
    (test (setPwd s p) w).logs = (test s w).logs := by
  have h := testLoop_pwd s p s.retry 1 w
  have hretry : (setPwd s p).retry = s.retry := rfl
  simp only [test, hretry]
  exact ⟨h.1, h.2.1, by rw [h.2.2]⟩

lemma get_clients_pwd (s : IosXeWlc) (p : String) (c : Option String) (gi : Bool)
    (w : List Outcome) :
    (get_clients (setPwd s p) c gi w).res = (get_clients s c gi w).res ∧
    (get_clients (setPwd s p) c gi w).world = (get_clients s c gi w).world ∧
    (get_clients (setPwd s p) c gi w).logs = (get_clients s c gi w).logs := by
  match c with
  | none =>
    have h := gcLoop_pwd s p none gi s.retry 1 w
    have hretry : (setPwd s p).retry = s.retry := rfl
    simp only [get_clients, hretry]
    exact ⟨h.1, h.2.1, by rw [h.2.2]⟩
  | some raw =>
    rcases hcanon : canonMacClients raw with e | mac
    · simp [get_clients, hcanon]
    · have h := gcLoop_pwd s p (some mac) gi s.retry 1 w
      have hretry : (setPwd s p).retry = s.retry := rfl
      simp only [get_clients, hcanon, hretry]
      exact ⟨h.1, h.2.1, by rw [h.2.2]⟩

lemma update_creds_pwd (s : IosXeWlc) (p u q : String) :
    (update_creds (setPwd s p) u q).1 = (update_creds s u q).1 ∧
    (update_creds (setPwd s p) u q).2 = (update_creds s u q).2 := by
  cases s
  simp [update_creds, setPwd]

lemma runSeq_pwd (s : IosXeWlc) (p : String) :
    ∀ (calls : List OpCall) (w : List Outcome),
    runSeq (setPwd s p) w calls = runSeq s w calls := by
  intro calls
  induction calls generalizing s with
  | nil => intro w; rfl
  | cons c rest ih =>
    intro w
    match c with
    | OpCall.upd u q =>
      have h := update_creds_pwd s p u q
      simp only [runSeq, h.2, h.1]
    | OpCall.testOp =>
      have h := test_pwd s p w
      simp only [runSeq, h.2.1, h.2.2, ih]
    | OpCall.clientsOp cl g =>
      have h := get_clients_pwd s p cl g w
      simp only [runSeq, h.2.1, h.2.2, ih]
    | OpCall.addressesOp cl =>
      have h := get_client_addresses_pwd s p cl w
      simp only [runSeq, h.2.1, h.2.2, ih]

/-- C9: the log entries produced by any sequence of operations are
    independent of the password (so the password value never reaches the
    logger), and `update_creds` logs only the new username. -/
theorem password_noninterference_in_logs (host u p₁ p₂ : String)
    (ca : Option String) (w : List Outcome) (calls : List OpCall) :
    runSeq (init host u p₁ ca) w calls = runSeq (init host u p₂ ca) w calls ∧
    (∀ (s : IosXeWlc) (u' p' : String),
      (update_creds s u' p').2 = [LogEntry.updateCreds u']) := by
  constructor
  · have h1 : init host u p₁ ca = setPwd (init host u p₂ ca) p₁ := rfl
    rw [h1, runSeq_pwd]
  · intro s u' p'; rfl

lemma gca_res_ok (s : IosXeWlc) (m : String) (w : List Outcome)
    (h : (canonMacAddresses m).isOk = true) :
    ∃ v, (get_client_addresses s (some m) w).res = .ok v := by
  rcases hc : canonMacAddresses m with e | mac
  · rw [hc] at h; simp [Except.isOk, Except.toBool] at h
  · exact ⟨(gcaLoop s (some mac) 1 s.retry w).res, by simp [get_client_addresses, hc]⟩

lemma lookupChain_length (s : IosXeWlc) :
    ∀ (ms : List String) (w : List Outcome),
    (lookupChain s ms w).1.length = ms.length := by
  intro ms
  induction ms with
  | nil => intro w; rfl
  | cons m ms ih => intro w; simp [lookupChain, ih]

lemma enrichList_chain (s : IosXeWlc) :
    ∀ (pairs : List (Json × String)) (w : List Outcome),
    (∀ pr ∈ pairs, pyGetItem pr.1 "client-mac" = .ok (.str pr.2) ∧
      (canonMacAddresses pr.2).isOk = true) →
    (enrichList s (pairs.map Prod.fst) w).res =
      .ok (List.zipWith (fun r v => objSet r "ip_addr" v) (pairs.map Prod.fst)
        (lookupChain s (pairs.map Prod.snd) w).1) ∧
    (enrichList s (pairs.map Prod.fst) w).world =
      (lookupChain s (pairs.map Prod.snd) w).2 ∧
    (enrichList s (pairs.map Prod.fst) w).lookups =
      List.zipWith (fun m v => (some m, v)) (pairs.map Prod.snd)
        (lookupChain s (pairs.map Prod.snd) w).1 := by
  intro pairs
  induction pairs with
  | nil => intro w _; simp [enrichList, lookupChain]
  | cons pr pairs ih =>
    intro w hp
    obtain ⟨r, m⟩ := pr
    have hhead := hp (r, m) (List.mem_cons_self _ _)
    have hget : pyGetItem r "client-mac" = .ok (.str m) := hhead.1
    obtain ⟨v, hv⟩ := gca_res_ok s m w hhead.2
    have hex : exVal (get_client_addresses s (some m) w).res = v := by
      rw [hv]; rfl
    have hrec := ih (get_client_addresses s (some m) w).world
      (fun q hq => hp q (List.mem_cons_of_mem _ hq))
    simp only [List.map_cons, lookupChain, hex]
    simp only [enrichList, hget, hv, hrec.1]
    exact ⟨by simp, by simp [hrec.2.1], by simp [hrec.2.2]⟩

/-- C6: on a successful `get_clients` with enrichment enabled, the
    address lookup is performed exactly once per returned record, with that
    record's `client-mac`, and each record gains an `ip_addr` field holding
    its own lookup's result (the chain of independent
    `get_client_addresses` calls). -/
theorem enrichment_one_lookup_per_record (s : IosXeWlc)
    (pairs : List (Json × String)) (kvs : List (String × Json))
    (rest : List Outcome)
    (hr : 0 < s.retry)
    (henv : jsonLookup kvs gcKey = some (.arr (pairs.map Prod.fst)))
    (hp : ∀ pr ∈ pairs, pyGetItem pr.1 "client-mac" = .ok (.str pr.2) ∧
      (canonMacAddresses pr.2).isOk = true) :
    (get_clients s none true (.resp 200 (some (.obj kvs)) :: rest)).res =
      .ok (.arr (List.zipWith (fun r v => objSet r "ip_addr" v) (pairs.map Prod.fst)
        (lookupChain s (pairs.map Prod.snd) rest).1)) ∧
    (get_clients s none true (.resp 200 (some (.obj kvs)) :: rest)).lookups =
      List.zipWith (fun m v => (some m, v)) (pairs.map Prod.snd)
        (lookupChain s (pairs.map Prod.snd) rest).1 ∧
    (get_clients s none true (.resp 200 (some (.obj kvs)) :: rest)).world =
      (lookupChain s (pairs.map Prod.snd) rest).2 ∧
    (lookupChain s (pairs.map Prod.snd) rest).1.length = pairs.length := by
  obtain ⟨f, hf⟩ : ∃ f, s.retry = f + 1 := ⟨s.retry - 1, by omega⟩
  have hchain := enrichList_chain s pairs rest hp
  have hatt : gcAttempt (some (.obj kvs)) =
      .ok (.arr (pairs.map Prod.fst), (pairs.map Prod.fst).length) := by
    simp [gcAttempt, dictGet, henv, pyLen]
  have hdo_res : (doEnrich s (.arr (pairs.map Prod.fst)) rest).res =
      .ok (.arr (List.zipWith (fun r v => objSet r "ip_addr" v) (pairs.map Prod.fst)
        (lookupChain s (pairs.map Prod.snd) rest).1)) := by
    simp only [doEnrich, hchain.1]
  have hdo_world : (doEnrich s (.arr (pairs.map Prod.fst)) rest).world =
      (lookupChain s (pairs.map Prod.snd) rest).2 := by
    rcases hres : (enrichList s (pairs.map Prod.fst) rest).res with e | xs'
    · rw [hres] at hchain; exact absurd hchain.1 (by simp)
    · simp only [doEnrich, hres]
      exact hchain.2.1
  have hdo_lookups : (doEnrich s (.arr (pairs.map Prod.fst)) rest).lookups =
      List.zipWith (fun m v => (some m, v)) (pairs.map Prod.snd)
        (lookupChain s (pairs.map Prod.snd) rest).1 := by
    rcases hres : (enrichList s (pairs.map Prod.fst) rest).res with e | xs'
    · rw [hres] at hchain; exact absurd hchain.1 (by simp)
    · simp only [doEnrich, hres]
      exact hchain.2.2
  refine ⟨?_, ?_, ?_, by rw [lookupChain_length s _ rest, List.length_map]⟩
  · simp [get_clients, hf, gcLoop, takeOutcome, hatt, hdo_res]
  · simp [get_clients, hf, gcLoop, takeOutcome, hatt, hdo_res, hdo_lookups]
  · simp [get_clients, hf, gcLoop, takeOutcome, hatt, hdo_res, hdo_world]

/-- Witness for C6 with one record and a concrete lookup response. -/
theorem enrichment_one_lookup_per_record_witness :
    (0 < (init "h" "u" "p" none).retry ∧
     jsonLookup [(gcKey, Json.arr [Json.obj [("client-mac", Json.str "aabbccddeeff")]])] gcKey =
       some (.arr ([(Json.obj [("client-mac", Json.str "aabbccddeeff")], "aabbccddeeff")].map Prod.fst)) ∧
     (∀ pr ∈ [(Json.obj [("client-mac", Json.str "aabbccddeeff")], "aabbccddeeff")],
       pyGetItem pr.1 "client-mac" = .ok (.str pr.2) ∧
       (canonMacAddresses pr.2).isOk = true)) ∧
    ((get_clients (init "h" "u" "p" none) none true
        (.resp 200 (some (.obj [(gcKey, Json.arr [Json.obj [("client-mac", Json.str "aabbccddeeff")]])])) ::
          [Outcome.resp 200 (some (Json.obj [(gcaKey, Json.arr [Json.str "10.0.0.1"])]))])).res =
      .ok (.arr (List.zipWith (fun r v => objSet r "ip_addr" v)
        ([(Json.obj [("client-mac", Json.str "aabbccddeeff")], "aabbccddeeff")].map Prod.fst)
        (lookupChain (init "h" "u" "p" none)
          ([(Json.obj [("client-mac", Json.str "aabbccddeeff")], "aabbccddeeff")].map Prod.snd)
          [Outcome.resp 200 (some (Json.obj [(gcaKey, Json.arr [Json.str "10.0.0.1"])]))]).1)) ∧
     (get_clients (init "h" "u" "p" none) none true
        (.resp 200 (some (.obj [(gcKey, Json.arr [Json.obj [("client-mac", Json.str "aabbccddeeff")]])])) ::
          [Outcome.resp 200 (some (Json.obj [(gcaKey, Json.arr [Json.str "10.0.0.1"])]))])).lookups =
      List.zipWith (fun m v => (some m, v))
        ([(Json.obj [("client-mac", Json.str "aabbccddeeff")], "aabbccddeeff")].map Prod.snd)
        (lookupChain (init "h" "u" "p" none)
          ([(Json.obj [("client-mac", Json.str "aabbccddeeff")], "aabbccddeeff")].map Prod.snd)
          [Outcome.resp 200 (some (Json.obj [(gcaKey, Json.arr [Json.str "10.0.0.1"])]))]).1 ∧
     (get_clients (init "h" "u" "p" none) none true
        (.resp 200 (some (.obj [(gcKey, Json.arr [Json.obj [("client-mac", Json.str "aabbccddeeff")]])])) ::
          [Outcome.resp 200 (some (Json.obj [(gcaKey, Json.arr [Json.str "10.0.0.1"])]))])).world =
      (lookupChain (init "h" "u" "p" none)
        ([(Json.obj [("client-mac", Json.str "aabbccddeeff")], "aabbccddeeff")].map Prod.snd)
        [Outcome.resp 200 (some (Json.obj [(gcaKey, Json.arr [Json.str "10.0.0.1"])]))]).2 ∧
     (lookupChain (init "h" "u" "p" none)
        ([(Json.obj [("client-mac", Json.str "aabbccddeeff")], "aabbccddeeff")].map Prod.snd)
        [Outcome.resp 200 (some (Json.obj [(gcaKey, Json.arr [Json.str "10.0.0.1"])]))]).1.length =
      [(Json.obj [("client-mac", Json.str "aabbccddeeff")], "aabbccddeeff")].length) :=
  ⟨⟨by decide, rfl,
    by
      intro pr hpr
      rw [List.mem_singleton] at hpr
      subst hpr
      exact ⟨rfl, rfl⟩⟩,
   enrichment_one_lookup_per_record (init "h" "u" "p" none)
     [(Json.obj [("client-mac", Json.str "aabbccddeeff")], "aabbccddeeff")]
     [(gcKey, Json.arr [Json.obj [("client-mac", Json.str "aabbccddeeff")]])]
     [Outcome.resp 200 (some (Json.obj [(gcaKey, Json.arr [Json.str "10.0.0.1"])]))]
     (by decide) rfl
     (by
       intro pr hpr
       rw [List.mem_singleton] at hpr
       subst hpr
       exact ⟨rfl, rfl⟩)⟩

lemma gcaLoop_world_mem (s : IosXeWlc) (c : Option String) :
    ∀ (f t : Nat) (w : List Outcome) (o : Outcome),
    o ∈ (gcaLoop s c t f w).world → o ∈ w := by
  intro f
  induction f with
  | zero => intro t w o ho; exact ho
  | succ f ih =>
    intro t w o ho
    match w with
    | [] =>
      simp only [gcaLoop, takeOutcome] at ho
      exact absurd (ih (t + 1) [] o ho) (by simp)
    | Outcome.exn en em :: w' =>
      simp only [gcaLoop, takeOutcome] at ho
      exact List.mem_cons_of_mem _ (ih (t + 1) w' o ho)
    | Outcome.resp st b :: w' =>
      by_cases hst : st = 200
      · subst hst
        rcases hatt : gcaAttempt b with e | cln
        · simp only [gcaLoop, takeOutcome, hatt, if_true] at ho
          exact List.mem_cons_of_mem _ (ih (t + 1) w' o ho)
        · obtain ⟨cl, n⟩ := cln
          simp [gcaLoop, takeOutcome, hatt] at ho
          exact List.mem_cons_of_mem _ ho
      · simp only [gcaLoop, takeOutcome, if_neg hst] at ho
        exact List.mem_cons_of_mem _ (ih (t + 1) w' o ho)

lemma get_client_addresses_world_mem (s : IosXeWlc) (c : Option String)
    (w : List Outcome) (o : Outcome)
    (ho : o ∈ (get_client_addresses s c w).world) : o ∈ w := by
  match c with
  | none =>
    simp only [get_client_addresses] at ho
    exact gcaLoop_world_mem s none s.retry 1 w o ho
  | some raw =>
    rcases hcanon : canonMacAddresses raw with e | mac
    · simp only [get_client_addresses, hcanon] at ho
      exact ho
    · simp only [get_client_addresses, hcanon] at ho
      exact gcaLoop_world_mem s (some mac) s.retry 1 w o ho

lemma enrichList_world_mem (s : IosXeWlc) :
    ∀ (rs : List Json) (w : List Outcome) (o : Outcome),
    o ∈ (enrichList s rs w).world → o ∈ w := by
  intro rs
  induction rs with
  | nil => intro w o ho; exact ho
  | cons rc rs ih =>
    intro w o ho
    rcases hget : pyGetItem rc "client-mac" with e | v
    · simp only [enrichList, hget] at ho; exact ho
    · match v with
      | Json.str mac =>
        rcases hres : (get_client_addresses s (some mac) w).res with e | v'
        · simp only [enrichList, hget, hres] at ho
          exact get_client_addresses_world_mem s (some mac) w o ho
        · rcases hrest : (enrichList s rs (get_client_addresses s (some mac) w).world).res with e' | rs'
          · simp only [enrichList, hget, hres, hrest] at ho
            exact get_client_addresses_world_mem s (some mac) w o (ih _ o ho)
          · simp only [enrichList, hget, hres, hrest] at ho
            exact get_client_addresses_world_mem s (some mac) w o (ih _ o ho)
      | Json.null =>
        rcases hres : (get_client_addresses s none w).res with e | v'
        · simp only [enrichList, hget, hres] at ho
          exact get_client_addresses_world_mem s none w o ho
        · rcases hrest : (enrichList s rs (get_client_addresses s none w).world).res with e' | rs'
          · simp only [enrichList, hget, hres, hrest] at ho
            exact get_client_addresses_world_mem s none w o (ih _ o ho)
          · simp only [enrichList, hget, hres, hrest] at ho
            exact get_client_addresses_world_mem s none w o (ih _ o ho)
      | Json.bool b => simp only [enrichList, hget] at ho; exact ho
      | Json.num n => simp only [enrichList, hget] at ho; exact ho
      | Json.arr xs => simp only [enrichList, hget] at ho; exact ho
      | Json.obj kvs => simp only [enrichList, hget] at ho; exact ho

lemma doEnrich_world_mem (s : IosXeWlc) (cl : Json) (w : List Outcome)
    (o : Outcome) (ho : o ∈ (doEnrich s cl w).world) : o ∈ w := by
  match cl with
  | Json.arr xs =>
    rcases hres : (enrichList s xs w).res with e | xs'
    · simp only [doEnrich, hres] at ho
      exact enrichList_world_mem s xs w o ho
    · simp only [doEnrich, hres] at ho
      exact enrichList_world_mem s xs w o ho
  | Json.obj [] => simpa [doEnrich] using ho
  | Json.obj (kv :: kvs) => simpa [doEnrich] using ho
  | Json.str s' =>
    by_cases hs' : s' = "" <;> simpa [doEnrich, hs'] using ho
  | Json.null => simpa [doEnrich] using ho
  | Json.bool b => simpa [doEnrich] using ho
  | Json.num n => simpa [doEnrich] using ho

lemma gcaLoop_logs_noGcFail (s : IosXeWlc) (c : Option String) :
    ∀ (f t : Nat) (w : List Outcome) (e : LogEntry),
    e ∈ (gcaLoop s c t f w).logs → isGcFailExn e = false := by
  intro f
  induction f with
  | zero =>
    intro t w e he
    simp only [gcaLoop] at he
    rw [List.mem_singleton] at he
    subst he; rfl
  | succ f ih =>
    intro t w e he
    match w with
    | [] =>
      simp only [gcaLoop, takeOutcome] at he
      rcases List.mem_cons.mp he with h | h
      · subst h; rfl
      · exact ih (t + 1) [] e h
    | Outcome.exn en em :: w' =>
      simp only [gcaLoop, takeOutcome] at he
      rcases List.mem_cons.mp he with h | h
      · subst h; rfl
      · exact ih (t + 1) w' e h
    | Outcome.resp st b :: w' =>
      by_cases hst : st = 200
      · subst hst
        rcases hatt : gcaAttempt b with e' | cln
        · simp only [gcaLoop, takeOutcome, hatt, if_true] at he
          rcases List.mem_cons.mp he with h | h
          · subst h; rfl
          · exact ih (t + 1) w' e h
        · obtain ⟨cl, n⟩ := cln
          simp [gcaLoop, takeOutcome, hatt] at he
          subst he; rfl
      · simp only [gcaLoop, takeOutcome, if_neg hst] at he
        rcases List.mem_cons.mp he with h | h
        · subst h; rfl
        · exact ih (t + 1) w' e h

lemma get_client_addresses_logs_noGcFail (s : IosXeWlc) (c : Option String)
    (w : List Outcome) (e : LogEntry)
    (he : e ∈ (get_client_addresses s c w).logs) : isGcFailExn e = false := by
  match c with
  | none =>
    simp only [get_client_addresses] at he
    rcases List.mem_cons.mp he with h | h
    · subst h; rfl
    · exact gcaLoop_logs_noGcFail s none s.retry 1 w e h
  | some raw =>
    rcases hcanon : canonMacAddresses raw with e' | mac
    · simp [get_client_addresses, hcanon] at he
    · simp only [get_client_addresses, hcanon] at he
      rcases List.mem_cons.mp he with h | h
      · subst h; rfl
      · exact gcaLoop_logs_noGcFail s (some mac) s.retry 1 w e h

lemma enrichList_logs_noGcFail (s : IosXeWlc) :
    ∀ (rs : List Json) (w : List Outcome) (e : LogEntry),
    e ∈ (enrichList s rs w).logs → isGcFailExn e = false := by
  intro rs
  induction rs with
  | nil => intro w e he; simp [enrichList] at he
  | cons rc rs ih =>
    intro w e he
    rcases hget : pyGetItem rc "client-mac" with e' | v
    · simp [enrichList, hget] at he
    · match v with
      | Json.str mac =>
        rcases hres : (get_client_addresses s (some mac) w).res with e' | v'
        · simp only [enrichList, hget, hres] at he
          exact get_client_addresses_logs_noGcFail s (some mac) w e he
        · rcases hrest : (enrichList s rs (get_client_addresses s (some mac) w).world).res with e'' | rs'
          · simp only [enrichList, hget, hres, hrest] at he
            rcases List.mem_append.mp he with h | h
            · exact get_client_addresses_logs_noGcFail s (some mac) w e h
            · exact ih _ e h
          · simp only [enrichList, hget, hres, hrest] at he
            rcases List.mem_append.mp he with h | h
            · exact get_client_addresses_logs_noGcFail s (some mac) w e h
            · exact ih _ e h
      | Json.null =>
        rcases hres : (get_client_addresses s none w).res with e' | v'
        · simp only [enrichList, hget, hres] at he
          exact get_client_addresses_logs_noGcFail s none w e he
        · rcases hrest : (enrichList s rs (get_client_addresses s none w).world).res with e'' | rs'
          · simp only [enrichList, hget, hres, hrest] at he
            rcases List.mem_append.mp he with h | h
            · exact get_client_addresses_logs_noGcFail s none w e h
            · exact ih _ e h
          · simp only [enrichList, hget, hres, hrest] at he
            rcases List.mem_append.mp he with h | h
            · exact get_client_addresses_logs_noGcFail s none w e h
            · exact ih _ e h
      | Json.bool b => simp [enrichList, hget] at he
      | Json.num n => simp [enrichList, hget] at he
      | Json.arr xs => simp [enrichList, hget] at he
      | Json.obj kvs => simp [enrichList, hget] at he

lemma doEnrich_logs_noGcFail (s : IosXeWlc) (cl : Json) (w : List Outcome)
    (e : LogEntry) (he : e ∈ (doEnrich s cl w).logs) : isGcFailExn e = false := by
  match cl with
  | Json.arr xs =>
    rcases hres : (enrichList s xs w).res with e' | xs'
    · simp only [doEnrich, hres] at he
      exact enrichList_logs_noGcFail s xs w e he
    · simp only [doEnrich, hres] at he
      exact enrichList_logs_noGcFail s xs w e he
  | Json.obj [] => simp [doEnrich] at he
  | Json.obj (kv :: kvs) => simp [doEnrich] at he
  | Json.str s' => by_cases hs' : s' = "" <;> simp [doEnrich, hs'] at he
  | Json.null => simp [doEnrich] at he
  | Json.bool b => simp [doEnrich] at he
  | Json.num n => simp [doEnrich] at he

lemma enrichList_raises (s : IosXeWlc) :
    ∀ (rs : List Json) (w : List Outcome),
    (∃ r ∈ rs, recordLookupRaises r = true) →
    ∃ e, (enrichList s rs w).res = .error e := by
  intro rs
  induction rs with
  | nil => intro w h; obtain ⟨r, hr, _⟩ := h; simp at hr
  | cons rc rs ih =>
    intro w h
    rcases hget : pyGetItem rc "client-mac" with e | v
    · exact ⟨e, by simp only [enrichList, hget]⟩
    · match v with
      | Json.str mac =>
        rcases hcanon : canonMacAddresses mac with e' | cm
        · have hres : (get_client_addresses s (some mac) w).res = .error e' := by
            simp [get_client_addresses, hcanon]
          exact ⟨e', by simp only [enrichList, hget, hres]⟩
        · have hrcfalse : recordLookupRaises rc = false := by
            simp [recordLookupRaises, hget, hcanon, Except.isOk, Except.toBool]
          have hbad : ∃ r ∈ rs, recordLookupRaises r = true := by
            obtain ⟨r, hr, hraise⟩ := h
            rcases List.mem_cons.mp hr with h' | h'
            · subst h'; rw [hrcfalse] at hraise; exact absurd hraise (by simp)
            · exact ⟨r, h', hraise⟩
          obtain ⟨v', hv'⟩ := gca_res_ok s mac w (by rw [hcanon]; rfl)
          obtain ⟨e'', he''⟩ := ih (get_client_addresses s (some mac) w).world hbad
          exact ⟨e'', by simp only [enrichList, hget, hv', he'']⟩
      | Json.null =>
        have hbad : ∃ r ∈ rs, recordLookupRaises r = true := by
          obtain ⟨r, hr, hraise⟩ := h
          rcases List.mem_cons.mp hr with h' | h'
          · subst h'
            simp [recordLookupRaises, hget] at hraise
          · exact ⟨r, h', hraise⟩
        have hv' : (get_client_addresses s none w).res =
            .ok (gcaLoop s none 1 s.retry w).res := by
          simp [get_client_addresses]
        obtain ⟨e'', he''⟩ := ih (get_client_addresses s none w).world hbad
        exact ⟨e'', by simp only [enrichList, hget, hv', he'']⟩
      | Json.bool b =>
        exact ⟨⟨"AttributeError", "object has no attribute replace"⟩,
          by simp only [enrichList, hget]⟩
      | Json.num n =>
        exact ⟨⟨"AttributeError", "object has no attribute replace"⟩,
          by simp only [enrichList, hget]⟩
      | Json.arr xs =>
        exact ⟨⟨"AttributeError", "object has no attribute replace"⟩,
          by simp only [enrichList, hget]⟩
      | Json.obj kvs =>
        exact ⟨⟨"AttributeError", "object has no attribute replace"⟩,
          by simp only [enrichList, hget]⟩

lemma gcLoop_raisingEnrich (s : IosXeWlc) (kvs : List (String × Json))
    (records : List Json)
    (henv : jsonLookup kvs gcKey = some (.arr records))
    (hbad : ∃ r ∈ records, recordLookupRaises r = true) :
    ∀ (f t : Nat) (w : List Outcome),
    (∀ o ∈ w, o = Outcome.resp 200 (some (.obj kvs))) →
    (gcLoop s none true t f w).res = .ok (.arr []) ∧
    (gcLoop s none true t f w).logs.countP isGcFailExn = f ∧
    LogEntry.gcExhausted (s.retry + 1) s.timeout ∈ (gcLoop s none true t f w).logs := by
  have hatt : gcAttempt (some (.obj kvs)) = .ok (.arr records, records.length) := by
    simp [gcAttempt, dictGet, henv, pyLen]
  intro f
  induction f with
  | zero =>
    intro t w hw
    refine ⟨rfl, ?_, by simp [gcLoop]⟩
    simp [gcLoop, List.countP_cons, List.countP_nil, isGcFailExn]
  | succ f ih =>
    intro t w hw
    match w with
    | [] =>
      have h := ih (t + 1) [] (by simp)
      simp only [gcLoop, takeOutcome]
      refine ⟨h.1, ?_, ?_⟩
      · simp only [List.countP_cons]
        rw [h.2.1]
        simp [isGcFailExn]
      · simp [h.2.2]
    | o :: w' =>
      have ho : o = Outcome.resp 200 (some (.obj kvs)) := hw o (List.mem_cons_self _ _)
      subst ho
      have hw' : ∀ o ∈ w', o = Outcome.resp 200 (some (.obj kvs)) :=
        fun o ho' => hw o (List.mem_cons_of_mem _ ho')
      obtain ⟨e, he⟩ := enrichList_raises s records w' hbad
      have hdo : (doEnrich s (.arr records) w').res = .error e := by
        simp only [doEnrich, he]
      have hw'' : ∀ o ∈ (doEnrich s (.arr records) w').world,
          o = Outcome.resp 200 (some (.obj kvs)) :=
        fun o ho' => hw' o (doEnrich_world_mem s (.arr records) w' o ho')
      have h := ih (t + 1) (doEnrich s (.arr records) w').world hw''
      have hlogs0 : (doEnrich s (.arr records) w').logs.countP isGcFailExn = 0 := by
        rw [List.countP_eq_zero]
        intro a ha
        simp [doEnrich_logs_noGcFail s (.arr records) w' a ha]
      simp only [gcLoop, takeOutcome, hatt, if_true, hdo]
      refine ⟨h.1, ?_, ?_⟩
      · simp only [List.countP_cons, List.countP_append, hlogs0, h.2.1]
        simp [isGcFailExn]
      · simp [h.2.2]

/-- C10: when a record of a 200 response makes the per-record lookup
    raise (missing or invalid `client-mac`), the exception is caught by the
    retry loop of `get_clients`: each attempt fails with a logged warning,
    the request is retried, and after exhaustion the call returns the empty
    list instead of propagating. -/
theorem enrichment_raise_caught_by_retry (s : IosXeWlc)
    (kvs : List (String × Json)) (records : List Json) (w : List Outcome)
    (henv : jsonLookup kvs gcKey = some (.arr records))
    (hbad : ∃ r ∈ records, recordLookupRaises r = true)
    (hw : ∀ o ∈ w, o = Outcome.resp 200 (some (.obj kvs))) :
    (get_clients s none true w).res = .ok (.arr []) ∧
    (get_clients s none true w).logs.countP isGcFailExn = s.retry ∧
    LogEntry.gcExhausted (s.retry + 1) s.timeout ∈ (get_clients s none true w).logs := by
  have h := gcLoop_raisingEnrich s kvs records henv hbad s.retry 1 w hw
  refine ⟨by simp [get_clients, h.1], ?_, ?_⟩
  · simp only [get_clients]
    simp only [List.countP_cons, h.2.1]
    simp [isGcFailExn]
  · simp [get_clients, h.2.2]

/-- Witness for C10 with a record lacking a client-mac field. -/
theorem enrichment_raise_caught_by_retry_witness :
    (jsonLookup [(gcKey, Json.arr [Json.obj []])] gcKey = some (.arr [Json.obj []]) ∧
     (∃ r ∈ [Json.obj []], recordLookupRaises r = true) ∧
     (∀ o ∈ [Outcome.resp 200 (some (.obj [(gcKey, Json.arr [Json.obj []])]))],
       o = Outcome.resp 200 (some (.obj [(gcKey, Json.arr [Json.obj []])])))) ∧
    ((get_clients (init "h" "u" "p" none) none true
        [Outcome.resp 200 (some (.obj [(gcKey, Json.arr [Json.obj []])]))]).res =
      .ok (.arr []) ∧
     (get_clients (init "h" "u" "p" none) none true
        [Outcome.resp 200 (some (.obj [(gcKey, Json.arr [Json.obj []])]))]).logs.countP
        isGcFailExn = (init "h" "u" "p" none).retry ∧
     LogEntry.gcExhausted ((init "h" "u" "p" none).retry + 1) (init "h" "u" "p" none).timeout ∈
       (get_clients (init "h" "u" "p" none) none true
         [Outcome.resp 200 (some (.obj [(gcKey, Json.arr [Json.obj []])]))]).logs) :=
  ⟨⟨rfl, ⟨Json.obj [], List.mem_singleton.mpr rfl, rfl⟩,
    by intro o ho; rw [List.mem_singleton] at ho; exact ho⟩,
   enrichment_raise_caught_by_retry (init "h" "u" "p" none)
     [(gcKey, Json.arr [Json.obj []])] [Json.obj []]
     [Outcome.resp 200 (some (.obj [(gcKey, Json.arr [Json.obj []])]))]
     rfl
     ⟨Json.obj [], List.mem_singleton.mpr rfl, rfl⟩
     (by intro o ho; rw [List.mem_singleton] at ho; exact ho)⟩

/-- Counterexample to C3 as stated: the input `"AABBCCDDEEFF"` has a
    stripped form of exactly 12 characters containing `'A'`, which is not a
    lowercase hex digit, yet neither operation raises: the code lowercases
    before validating. -/
theorem mac_validation_claim_counterexample :
    (strippedNoLower "AABBCCDDEEFF").length = 12 ∧
    'A' ∈ strippedNoLower "AABBCCDDEEFF" ∧
    isLowerHexDigit 'A' = false ∧
    (get_clients (init "wlc1" "u" "p" none) (some "AABBCCDDEEFF") false []).res =
      .ok (.arr []) ∧
    (get_client_addresses (init "wlc1" "u" "p" none) (some "AABBCCDDEEFF") []).res =
      .ok (.arr []) :=
  ⟨by decide, by decide, by decide, rfl, rfl⟩

theorem canonMacClients_error_of_invalid (raw : String)
    (h : (stripLower raw).length ≠ 12 ∨ ∃ ch ∈ stripLower raw, ch ∉ hexChars) :
    ∃ e, canonMacClients raw = .error e := by
  by_cases hl : (stripLower raw).length ≠ 12
  · exact ⟨_, by simp only [canonMacClients, if_pos hl]; rfl⟩
  · have hch : ∃ ch ∈ stripLower raw, ch ∉ hexChars := h.resolve_left hl
    have hsome : ((stripLower raw).find? (fun ch => !(hexChars.contains ch))).isSome := by
      rw [List.find?_isSome]
      obtain ⟨ch, hmem, hnot⟩ := hch
      exact ⟨ch, hmem, by simpa using hnot⟩
    obtain ⟨ch, hfind⟩ := Option.isSome_iff_exists.mp hsome
    have heq : canonMacClients raw = .error ⟨"ValueError",
        "Expecting MAC address and got an invalid char (" ++ String.mk [ch] ++ ") " ++
          String.mk (stripLower raw)⟩ := by
      simp only [canonMacClients, if_neg hl, hfind]
    exact ⟨_, heq⟩

/-- C3 (amended): every input whose form after separator-stripping and
    lowercasing is not exactly 12 characters or contains a non-hex
    character makes both listing operations raise `ValueError`
    synchronously, before any transport request and without entering the
    retry loop. -/
theorem mac_validation_rejects (s : IosXeWlc) (raw : String) (gi : Bool)
    (w : List Outcome)
    (h : (stripLower raw).length ≠ 12 ∨ ∃ ch ∈ stripLower raw, ch ∉ hexChars) :
    (∃ e, get_clients s (some raw) gi w = ⟨.error e, w, [], [], []⟩) ∧
    (∃ e, get_client_addresses s (some raw) w = ⟨.error e, w, [], [], []⟩) := by
  obtain ⟨e, he⟩ := canonMacClients_error_of_invalid raw h
  have he' : canonMacAddresses raw = .error e := he
  constructor
  · exact ⟨e, by simp only [get_clients, he]⟩
  · exact ⟨e, by simp only [get_client_addresses, he']⟩

/-- Witness for the amended C3 at a concrete invalid input. -/
theorem mac_validation_rejects_witness :
    (((stripLower "xyz").length ≠ 12 ∨ ∃ ch ∈ stripLower "xyz", ch ∉ hexChars) ∧
     ∃ e, get_clients (init "h" "u" "p" none) (some "xyz") false [] =
       ⟨.error e, [], [], [], []⟩) :=
  ⟨by decide, (mac_validation_rejects (init "h" "u" "p" none) "xyz" false [] (by decide)).1⟩

/-- C2: every accepted spelling of a 12-hex-digit MAC address (separators
    `:`, `-`, `.` in any position, any mix of case) canonicalizes to the
    same six lowercase hex byte-pairs joined by colons, and `get_clients`
    and `get_client_addresses` apply the same canonicalization. -/
theorem mac_canonicalization_uniform
    (raw : String) (a b c d e f g h i j k l : Char)
    (hs : stripLower raw = [a,b,c,d,e,f,g,h,i,j,k,l])
    (hhex : ∀ ch ∈ [a,b,c,d,e,f,g,h,i,j,k,l], ch ∈ hexChars) :
    canonMacClients raw =
      .ok (String.mk [a,b,':',c,d,':',e,f,':',g,h,':',i,j,':',k,l]) ∧
    canonMacAddresses raw =
      .ok (String.mk [a,b,':',c,d,':',e,f,':',g,h,':',i,j,':',k,l]) ∧
    (∀ ch ∈ [a,b,':',c,d,':',e,f,':',g,h,':',i,j,':',k,l], ch ∈ ':' :: hexChars) ∧
    (∀ s', canonMacClients s' = canonMacAddresses s') := by
  have hfind : ([a,b,c,d,e,f,g,h,i,j,k,l].find?
      (fun ch => !(hexChars.contains ch))) = none := by
    rw [List.find?_eq_none]
    intro x hx
    simpa using hhex x hx
  refine ⟨?_, ?_, ?_, fun _ => rfl⟩
  · simp only [canonMacClients, hs, hfind]
    rfl
  · simp only [canonMacAddresses, hs, hfind]
    rfl
  · intro ch hch
    simp only [List.mem_cons] at hch hhex ⊢
    rcases hch with h|h|h|h|h|h|h|h|h|h|h|h|h|h|h|h|h|h
    all_goals first
      | (left; exact h)
      | (right; exact hhex ch (by simp [h]))

/-- Witness for C2 at a mixed-case, mixed-separator spelling. -/
theorem mac_canonicalization_uniform_witness :
    (stripLower "AA:bb-Cc.ddEEff" = ['a','a','b','b','c','c','d','d','e','e','f','f'] ∧
     ∀ ch ∈ ['a','a','b','b','c','c','d','d','e','e','f','f'], ch ∈ hexChars) ∧
    (canonMacClients "AA:bb-Cc.ddEEff" =
      .ok (String.mk ['a','a',':','b','b',':','c','c',':','d','d',':','e','e',':','f','f']) ∧
     canonMacAddresses "AA:bb-Cc.ddEEff" =
      .ok (String.mk ['a','a',':','b','b',':','c','c',':','d','d',':','e','e',':','f','f']) ∧
     (∀ ch ∈ ['a','a',':','b','b',':','c','c',':','d','d',':','e','e',':','f','f'],
       ch ∈ ':' :: hexChars) ∧
     (∀ s', canonMacClients s' = canonMacAddresses s')) :=
  ⟨⟨by decide, by decide⟩,
   mac_canonicalization_uniform "AA:bb-Cc.ddEEff"
     'a' 'a' 'b' 'b' 'c' 'c' 'd' 'd' 'e' 'e' 'f' 'f' (by decide) (by decide)⟩


lemma gcaLoop_failPfx_ok (s : IosXeWlc) (c : Option String) :
    ∀ (wf : List Outcome) (f t : Nat) (body? : Option Json) (cl : Json) (n : Nat)
      (rest : List Outcome),
    (∀ o ∈ wf, attemptFails o = true) → wf.length < f →
    gcaAttempt body? = .ok (cl, n) →
    (gcaLoop s c t f (wf ++ .resp 200 body? :: rest)).res = cl ∧
    (gcaLoop s c t f (wf ++ .resp 200 body? :: rest)).world = rest ∧
    (gcaLoop s c t f (wf ++ .resp 200 body? :: rest)).reqs.length = wf.length + 1 := by
  intro wf
  induction wf with
  | nil =>
    intro f t body? cl n rest _ hf hatt
    match f, hf with
    | f + 1, _ =>
      simp [gcaLoop, takeOutcome, hatt]
  | cons o wf ih =>
    intro f t body? cl n rest hw hf hatt
    match f, hf with
    | f + 1, hf =>
      have hlt : wf.length < f := by simpa using hf
      have h := ih f (t + 1) body? cl n rest
        (fun o ho => hw o (List.mem_cons_of_mem _ ho)) hlt hatt
      match o with
      | Outcome.exn en em =>
        simp only [gcaLoop, takeOutcome, List.cons_append]
        exact ⟨h.1, by simp [h.2.1], by simp [h.2.2]⟩
      | Outcome.resp st b =>
        have hst : st ≠ 200 := by
          have := hw _ (List.mem_cons_self _ _)
          simpa [attemptFails] using this
        simp only [gcaLoop, takeOutcome, List.cons_append, if_neg hst]
        exact ⟨h.1, by simp [h.2.1], by simp [h.2.2]⟩

lemma gcLoop_failPfx_noIp (s : IosXeWlc) (c : Option String) :
    ∀ (wf : List Outcome) (f t : Nat) (body? : Option Json) (cl : Json) (n : Nat)
      (rest : List Outcome),
    (∀ o ∈ wf, attemptFails o = true) → wf.length < f →
    gcAttempt body? = .ok (cl, n) →
    (gcLoop s c false t f (wf ++ .resp 200 body? :: rest)).res = .ok cl ∧
    (gcLoop s c false t f (wf ++ .resp 200 body? :: rest)).world = rest ∧
    (gcLoop s c false t f (wf ++ .resp 200 body? :: rest)).reqs.length = wf.length + 1 := by
  intro wf
  induction wf with
  | nil =>
    intro f t body? cl n rest _ hf hatt
    match f, hf with
    | f + 1, _ =>
      simp [gcLoop, takeOutcome, hatt]
  | cons o wf ih =>
    intro f t body? cl n rest hw hf hatt
    match f, hf with
    | f + 1, hf =>
      have hlt : wf.length < f := by simpa using hf
      have h := ih f (t + 1) body? cl n rest
        (fun o ho => hw o (List.mem_cons_of_mem _ ho)) hlt hatt
      match o with
      | Outcome.exn en em =>
        simp only [gcLoop, takeOutcome, List.cons_append]
        exact ⟨h.1, by simp [h.2.1], by simp [h.2.2]⟩
      | Outcome.resp st b =>
        have hst : st ≠ 200 := by
          have := hw _ (List.mem_cons_self _ _)
          simpa [attemptFails] using this
        simp only [gcLoop, takeOutcome, List.cons_append, if_neg hst]
        exact ⟨h.1, by simp [h.2.1], by simp [h.2.2]⟩

lemma gcLoop_failPfx_enrich (s : IosXeWlc) (c : Option String) :
    ∀ (wf : List Outcome) (f t : Nat) (body? : Option Json) (cl cl' : Json) (n : Nat)
      (rest : List Outcome),
    (∀ o ∈ wf, attemptFails o = true) → wf.length < f →
    gcAttempt body? = .ok (cl, n) →
    (doEnrich s cl rest).res = .ok cl' →
    (gcLoop s c true t f (wf ++ .resp 200 body? :: rest)).res = .ok cl' ∧
    (gcLoop s c true t f (wf ++ .resp 200 body? :: rest)).world = (doEnrich s cl rest).world ∧
    (gcLoop s c true t f (wf ++ .resp 200 body? :: rest)).reqs.length =
      (wf.length + 1) + (doEnrich s cl rest).reqs.length := by
  intro wf
  induction wf with
  | nil =>
    intro f t body? cl cl' n rest _ hf hatt hen
    match f, hf with
    | f + 1, _ =>
      refine ⟨?_, ?_, ?_⟩ <;>
        simp [gcLoop, takeOutcome, hatt, hen, Nat.add_comm]
  | cons o wf ih =>
    intro f t body? cl cl' n rest hw hf hatt hen
    match f, hf with
    | f + 1, hf =>
      have hlt : wf.length < f := by simpa using hf
      have h := ih f (t + 1) body? cl cl' n rest
        (fun o ho => hw o (List.mem_cons_of_mem _ ho)) hlt hatt hen
      match o with
      | Outcome.exn en em =>
        simp only [gcLoop, takeOutcome, List.cons_append]
        refine ⟨h.1, by simp [h.2.1], ?_⟩
        simp [h.2.2]
        omega
      | Outcome.resp st b =>
        have hst : st ≠ 200 := by
          have := hw _ (List.mem_cons_self _ _)
          simpa [attemptFails] using this
        simp only [gcLoop, takeOutcome, List.cons_append, if_neg hst]
        refine ⟨h.1, by simp [h.2.1], ?_⟩
        simp [h.2.2]
        omega


/-- Counterexample to C4 as stated: (a) at attempt number `k = 1`, a 200
    response with a parseable body bearing one record makes `get_clients`
    (enrichment enabled, the default) return its success result while the
    transport is invoked twice, not exactly `k = 1` times, because the
    per-record address lookup issues a further request; (b) a 200 response
    at attempt 1 whose parseable body maps the envelope key to a number
    (no `len`) makes `get_client_addresses` retry to exhaustion: three
    transport invocations and the empty list, not an immediate success at
    one invocation. -/
theorem success_on_attempt_k_counterexample :
    ((get_clients (init "h" "u" "p" none) none true
        [Outcome.resp 200 (some (.obj [(gcKey,
           Json.arr [Json.obj [("client-mac", Json.str "aabbccddeeff")]])])),
         Outcome.resp 200 (some (.obj [(gcaKey, Json.arr [Json.str "10.0.0.1"])]))]).res =
      .ok (.arr [Json.obj [("client-mac", Json.str "aabbccddeeff"),
                           ("ip_addr", Json.arr [Json.str "10.0.0.1"])]]) ∧
     (get_clients (init "h" "u" "p" none) none true
        [Outcome.resp 200 (some (.obj [(gcKey,
           Json.arr [Json.obj [("client-mac", Json.str "aabbccddeeff")]])])),
         Outcome.resp 200 (some (.obj [(gcaKey, Json.arr [Json.str "10.0.0.1"])]))]).reqs.length = 2 ∧
     (2 : Nat) ≠ 1) ∧
    ((get_client_addresses (init "h" "u" "p" none) none
        [Outcome.resp 200 (some (.obj [(gcaKey, Json.num 5)]))]).res = .ok (.arr []) ∧
     (get_client_addresses (init "h" "u" "p" none) none
        [Outcome.resp 200 (some (.obj [(gcaKey, Json.num 5)]))]).reqs.length =
       (init "h" "u" "p" none).retry ∧
     (init "h" "u" "p" none).retry ≠ 1) :=
  ⟨⟨rfl, rfl, by decide⟩, ⟨rfl, rfl, by decide⟩⟩

/-- C4 (amended): if the first `k - 1` attempts fail and attempt
    `k ≤ retry` returns status 200 — for the listing operations with a
    parseable body whose envelope processing does not raise, and for
    `get_clients` with enrichment enabled additionally an enrichment pass
    that does not raise — the operation returns its success result
    immediately and its attempt loop issues exactly `k` transport
    requests; `get_clients` with enrichment enabled issues exactly the
    `k` attempt requests plus the requests of its per-record address
    lookups, and no more. -/
theorem success_on_attempt_k_amended (s : IosXeWlc) (wf rest : List Outcome)
    (body? body?c body?a : Option Json) (cla clc cl' : Json) (na nc : Nat)
    (hf : ∀ o ∈ wf, attemptFails o = true) (hk : wf.length < s.retry)
    (hga : gcaAttempt body?a = .ok (cla, na))
    (hgc : gcAttempt body?c = .ok (clc, nc))
    (hen : (doEnrich s clc rest).res = .ok cl') :
    ((test s (wf ++ .resp 200 body? :: rest)).res = true ∧
     (test s (wf ++ .resp 200 body? :: rest)).world = rest ∧
     (test s (wf ++ .resp 200 body? :: rest)).reqs.length = wf.length + 1) ∧
    ((get_client_addresses s none (wf ++ .resp 200 body?a :: rest)).res = .ok cla ∧
     (get_client_addresses s none (wf ++ .resp 200 body?a :: rest)).world = rest ∧
     (get_client_addresses s none (wf ++ .resp 200 body?a :: rest)).reqs.length = wf.length + 1) ∧
    ((get_clients s none false (wf ++ .resp 200 body?c :: rest)).res = .ok clc ∧
     (get_clients s none false (wf ++ .resp 200 body?c :: rest)).world = rest ∧
     (get_clients s none false (wf ++ .resp 200 body?c :: rest)).reqs.length = wf.length + 1) ∧
    ((get_clients s none true (wf ++ .resp 200 body?c :: rest)).res = .ok cl' ∧
     (get_clients s none true (wf ++ .resp 200 body?c :: rest)).world =
       (doEnrich s clc rest).world ∧
     (get_clients s none true (wf ++ .resp 200 body?c :: rest)).reqs.length =
       (wf.length + 1) + (doEnrich s clc rest).reqs.length) := by
  have ht := testLoop_failPfx s wf s.retry 1 body? rest hf hk
  have ha := gcaLoop_failPfx_ok s none wf s.retry 1 body?a cla na rest hf hk hga
  have hc0 := gcLoop_failPfx_noIp s none wf s.retry 1 body?c clc nc rest hf hk hgc
  have hc1 := gcLoop_failPfx_enrich s none wf s.retry 1 body?c clc cl' nc rest hf hk hgc hen
  exact ⟨⟨by simp [test, ht.1], by simp [test, ht.2.1], by simp [test, ht.2.2]⟩,
         ⟨by simp [get_client_addresses, ha.1], by simp [get_client_addresses, ha.2.1],
          by simp [get_client_addresses, ha.2.2]⟩,
         ⟨by simp [get_clients, hc0.1], by simp [get_clients, hc0.2.1],
          by simp [get_clients, hc0.2.2]⟩,
         ⟨by simp [get_clients, hc1.1], by simp [get_clients, hc1.2.1],
          by simp [get_clients, hc1.2.2]⟩⟩


/-- Witness for the amended C4: one failing attempt, then a 200 with one
    record; the enrichment lookup adds exactly one further request. -/
theorem success_on_attempt_k_amended_witness :
    ((∀ o ∈ [Outcome.exn "ConnectTimeout" "t"], attemptFails o = true) ∧
     [Outcome.exn "ConnectTimeout" "t"].length < (init "h" "u" "p" none).retry ∧
     gcaAttempt (some (.obj [(gcaKey, Json.arr [Json.str "ip"])])) =
       .ok (Json.arr [Json.str "ip"], 1) ∧
     gcAttempt (some (.obj [(gcKey,
         Json.arr [Json.obj [("client-mac", Json.str "aabbccddeeff")]])])) =
       .ok (Json.arr [Json.obj [("client-mac", Json.str "aabbccddeeff")]], 1) ∧
     (doEnrich (init "h" "u" "p" none)
        (Json.arr [Json.obj [("client-mac", Json.str "aabbccddeeff")]])
        [Outcome.resp 200 (some (.obj [(gcaKey, Json.arr [Json.str "10.0.0.1"])]))]).res =
       .ok (Json.arr [Json.obj [("client-mac", Json.str "aabbccddeeff"),
                                ("ip_addr", Json.arr [Json.str "10.0.0.1"])]])) ∧
    (((test (init "h" "u" "p" none) ([Outcome.exn "ConnectTimeout" "t"] ++
        .resp 200 none ::
          [Outcome.resp 200 (some (.obj [(gcaKey, Json.arr [Json.str "10.0.0.1"])]))])).res = true ∧
      (test (init "h" "u" "p" none) ([Outcome.exn "ConnectTimeout" "t"] ++
        .resp 200 none ::
          [Outcome.resp 200 (some (.obj [(gcaKey, Json.arr [Json.str "10.0.0.1"])]))])).world =
        [Outcome.resp 200 (some (.obj [(gcaKey, Json.arr [Json.str "10.0.0.1"])]))] ∧
      (test (init "h" "u" "p" none) ([Outcome.exn "ConnectTimeout" "t"] ++
        .resp 200 none ::
          [Outcome.resp 200 (some (.obj [(gcaKey, Json.arr [Json.str "10.0.0.1"])]))])).reqs.length =
        [Outcome.exn "ConnectTimeout" "t"].length + 1) ∧
     ((get_client_addresses (init "h" "u" "p" none) none
        ([Outcome.exn "ConnectTimeout" "t"] ++
          .resp 200 (some (.obj [(gcaKey, Json.arr [Json.str "ip"])])) ::
            [Outcome.resp 200 (some (.obj [(gcaKey, Json.arr [Json.str "10.0.0.1"])]))])).res =
        .ok (Json.arr [Json.str "ip"]) ∧
      (get_client_addresses (init "h" "u" "p" none) none
        ([Outcome.exn "ConnectTimeout" "t"] ++
          .resp 200 (some (.obj [(gcaKey, Json.arr [Json.str "ip"])])) ::
            [Outcome.resp 200 (some (.obj [(gcaKey, Json.arr [Json.str "10.0.0.1"])]))])).world =
        [Outcome.resp 200 (some (.obj [(gcaKey, Json.arr [Json.str "10.0.0.1"])]))] ∧
      (get_client_addresses (init "h" "u" "p" none) none
        ([Outcome.exn "ConnectTimeout" "t"] ++
          .resp 200 (some (.obj [(gcaKey, Json.arr [Json.str "ip"])])) ::
            [Outcome.resp 200 (some (.obj [(gcaKey, Json.arr [Json.str "10.0.0.1"])]))])).reqs.length =
        [Outcome.exn "ConnectTimeout" "t"].length + 1) ∧
     ((get_clients (init "h" "u" "p" none) none false
        ([Outcome.exn "ConnectTimeout" "t"] ++
          .resp 200 (some (.obj [(gcKey,
            Json.arr [Json.obj [("client-mac", Json.str "aabbccddeeff")]])])) ::
            [Outcome.resp 200 (some (.obj [(gcaKey, Json.arr [Json.str "10.0.0.1"])]))])).res =
        .ok (Json.arr [Json.obj [("client-mac", Json.str "aabbccddeeff")]]) ∧
      (get_clients (init "h" "u" "p" none) none false
        ([Outcome.exn "ConnectTimeout" "t"] ++
          .resp 200 (some (.obj [(gcKey,
            Json.arr [Json.obj [("client-mac", Json.str "aabbccddeeff")]])])) ::
            [Outcome.resp 200 (some (.obj [(gcaKey, Json.arr [Json.str "10.0.0.1"])]))])).world =
        [Outcome.resp 200 (some (.obj [(gcaKey, Json.arr [Json.str "10.0.0.1"])]))] ∧
      (get_clients (init "h" "u" "p" none) none false
        ([Outcome.exn "ConnectTimeout" "t"] ++
          .resp 200 (some (.obj [(gcKey,
            Json.arr [Json.obj [("client-mac", Json.str "aabbccddeeff")]])])) ::
            [Outcome.resp 200 (some (.obj [(gcaKey, Json.arr [Json.str "10.0.0.1"])]))])).reqs.length =
        [Outcome.exn "ConnectTimeout" "t"].length + 1) ∧
     ((get_clients (init "h" "u" "p" none) none true
        ([Outcome.exn "ConnectTimeout" "t"] ++
          .resp 200 (some (.obj [(gcKey,
            Json.arr [Json.obj [("client-mac", Json.str "aabbccddeeff")]])])) ::
            [Outcome.resp 200 (some (.obj [(gcaKey, Json.arr [Json.str "10.0.0.1"])]))])).res =
        .ok (Json.arr [Json.obj [("client-mac", Json.str "aabbccddeeff"),
                                 ("ip_addr", Json.arr [Json.str "10.0.0.1"])]]) ∧
      (get_clients (init "h" "u" "p" none) none true
        ([Outcome.exn "ConnectTimeout" "t"] ++
          .resp 200 (some (.obj [(gcKey,
            Json.arr [Json.obj [("client-mac", Json.str "aabbccddeeff")]])])) ::
            [Outcome.resp 200 (some (.obj [(gcaKey, Json.arr [Json.str "10.0.0.1"])]))])).world =
        (doEnrich (init "h" "u" "p" none)
          (Json.arr [Json.obj [("client-mac", Json.str "aabbccddeeff")]])
          [Outcome.resp 200 (some (.obj [(gcaKey, Json.arr [Json.str "10.0.0.1"])]))]).world ∧
      (get_clients (init "h" "u" "p" none) none true
        ([Outcome.exn "ConnectTimeout" "t"] ++
          .resp 200 (some (.obj [(gcKey,
            Json.arr [Json.obj [("client-mac", Json.str "aabbccddeeff")]])])) ::
            [Outcome.resp 200 (some (.obj [(gcaKey, Json.arr [Json.str "10.0.0.1"])]))])).reqs.length =
        ([Outcome.exn "ConnectTimeout" "t"].length + 1) +
        (doEnrich (init "h" "u" "p" none)
          (Json.arr [Json.obj [("client-mac", Json.str "aabbccddeeff")]])
          [Outcome.resp 200 (some (.obj [(gcaKey, Json.arr [Json.str "10.0.0.1"])]))]).reqs.length)) :=
  ⟨⟨by intro o ho; rw [List.mem_singleton] at ho; subst ho; rfl,
    by decide, rfl, rfl, rfl⟩,
   success_on_attempt_k_amended (init "h" "u" "p" none)
     [Outcome.exn "ConnectTimeout" "t"]
     [Outcome.resp 200 (some (.obj [(gcaKey, Json.arr [Json.str "10.0.0.1"])]))]
     none
     (some (.obj [(gcKey, Json.arr [Json.obj [("client-mac", Json.str "aabbccddeeff")]])]))
     (some (.obj [(gcaKey, Json.arr [Json.str "ip"])]))
     (Json.arr [Json.str "ip"])
     (Json.arr [Json.obj [("client-mac", Json.str "aabbccddeeff")]])
     (Json.arr [Json.obj [("client-mac", Json.str "aabbccddeeff"),
                          ("ip_addr", Json.arr [Json.str "10.0.0.1"])]])
     1 1
     (by intro o ho; rw [List.mem_singleton] at ho; subst ho; rfl)
     (by decide) rfl rfl rfl⟩

end IosXeWlcSpec
